import Mathlib

/-!
Verification of the IMAP server-response parser (rfc3501 grammar module).

The parser is a nom-style streaming combinator grammar over raw bytes.  We
embed bytes as `Nat`, inputs as `List Nat`, and a parser as a function from
the input to a four-way outcome mirroring nom's streaming `IResult` plus an
explicit `panicked` outcome used to model a Rust `unwrap()` on an absent
value:

  * `ok rest val` — success, `rest` is the unconsumed suffix;
  * `err`         — syntax (or `map_res` validation) failure;
  * `incomplete`  — a valid prefix, more bytes are needed;
  * `panicked`    — the process aborted (models a Rust panic).

The combinators (`tagP`, `tagNoCase`, `charP`, `takeWhileCore`, `pmap`,
`pmapRes`, `pseq`, `popt`, `palt`, `many0`, `many1`, ...) follow the
semantics of the nom 6 streaming combinators that the source uses.
-/

namespace Imap

abbrev Byte := Nat

/-- Result of running a streaming parser on an input. -/
inductive PResult (α : Type) : Type where
  | ok (rest : List Byte) (val : α)
  | err
  | incomplete
  | panicked
deriving DecidableEq

abbrev Parser (α : Type) : Type := List Byte → PResult α

/-- Byte sequence of an ASCII string literal (used to transcribe the byte
and string literals appearing in the source). -/
def bytes (s : String) : List Byte := s.data.map Char.toNat

/-- ASCII lower-casing of one byte, as Rust `to_ascii_lowercase`. -/
def toLower (b : Byte) : Byte := if 65 ≤ b ∧ b ≤ 90 then b + 32 else b

/-- Rust `str::eq_ignore_ascii_case` on byte sequences. -/
def eqIgnoreAsciiCase (a b : List Byte) : Bool :=
  a.map toLower == b.map toLower

/-- Shared engine for nom `tag` and `tag_no_case`: compare the expected
bytes `t` against the head of the input with byte equivalence `eqb`;
running out of input while still matching is `incomplete` (streaming). -/
def tagCore (eqb : Byte → Byte → Bool) : List Byte → Parser Unit
  | [], i => .ok i ()
  | _ :: _, [] => .incomplete
  | a :: t1, b :: i1 =>
      if eqb a b then tagCore eqb t1 i1 else .err

/-- nom streaming `tag`. -/
def tagP (t : List Byte) : Parser Unit := tagCore (fun a b => a == b) t

/-- nom streaming `tag_no_case` (ASCII case-insensitive). -/
def tagNoCase (t : List Byte) : Parser Unit :=
  tagCore (fun a b => toLower a == toLower b) t

/-- nom streaming `char`. -/
def charP (c : Byte) : Parser Byte := fun i =>
  match i with
  | [] => .incomplete
  | b :: r => if b = c then .ok r c else .err

/-- nom streaming `take_while`: consume while `f` holds; reaching the end
of input is `incomplete` (more matching bytes could follow). -/
def takeWhileCore (f : Byte → Bool) : Parser (List Byte)
  | [] => .incomplete
  | b :: r =>
      if f b then
        match takeWhileCore f r with
        | .ok r2 v => .ok r2 (b :: v)
        | .err => .err
        | .incomplete => .incomplete
        | .panicked => .panicked
      else .ok (b :: r) []

/-- nom streaming `take_while1`: like `take_while` but the run must be
non-empty. -/
def takeWhile1 (f : Byte → Bool) : Parser (List Byte) := fun i =>
  match takeWhileCore f i with
  | .ok _ [] => .err
  | .ok r (b :: v) => .ok r (b :: v)
  | .err => .err
  | .incomplete => .incomplete
  | .panicked => .panicked

/-- Consume exactly `n` bytes (the body of a literal). -/
def takeN (n : Nat) : Parser (List Byte) := fun i =>
  if i.length < n then .incomplete else .ok (i.drop n) (i.take n)

/-- nom `map`. -/
def pmap {α β : Type} (p : Parser α) (f : α → β) : Parser β := fun i =>
  match p i with
  | .ok r v => .ok r (f v)
  | .err => .err
  | .incomplete => .incomplete
  | .panicked => .panicked

/-- nom `map_res`: the mapping function may reject the value, which nom
reports as an ordinary parse `Error`. -/
def pmapRes {α β : Type} (p : Parser α) (f : α → Option β) : Parser β := fun i =>
  match p i with
  | .ok r v =>
      match f v with
      | some b => .ok r b
      | none => .err
  | .err => .err
  | .incomplete => .incomplete
  | .panicked => .panicked

/-- nom `map` whose Rust mapping function can panic (an `unwrap()` on an
absent value, or a byte slice of a `str` off a character boundary): the
`none` case of `f` is the panicking input, aborting the whole process. -/
def pmapUnwrap {α β : Type} (p : Parser α) (f : α → Option β) : Parser β := fun i =>
  match p i with
  | .ok r v =>
      match f v with
      | some b => .ok r b
      | none => .panicked
  | .err => .err
  | .incomplete => .incomplete
  | .panicked => .panicked

/-- Sequencing, as nom `pair`/`tuple`: run `p`, then `q` on the rest. -/
def pseq {α β : Type} (p : Parser α) (q : Parser β) : Parser (α × β) := fun i =>
  match p i with
  | .ok r a =>
      match q r with
      | .ok r2 b => .ok r2 (a, b)
      | .err => .err
      | .incomplete => .incomplete
      | .panicked => .panicked
  | .err => .err
  | .incomplete => .incomplete
  | .panicked => .panicked

/-- Value-dependent sequencing (used for the length-prefixed literal). -/
def pbind {α β : Type} (p : Parser α) (f : α → Parser β) : Parser β := fun i =>
  match p i with
  | .ok r a => f a r
  | .err => .err
  | .incomplete => .incomplete
  | .panicked => .panicked

/-- nom `opt`: failure becomes `none` without consuming; `Incomplete`
propagates. -/
def popt {α : Type} (p : Parser α) : Parser (Option α) := fun i =>
  match p i with
  | .ok r v => .ok r (some v)
  | .err => .ok i none
  | .incomplete => .incomplete
  | .panicked => .panicked

/-- nom `alt` (binary): try the second parser only on `Error`. -/
def palt {α : Type} (p q : Parser α) : Parser α := fun i =>
  match p i with
  | .err => q i
  | .ok r v => .ok r v
  | .incomplete => .incomplete
  | .panicked => .panicked

/-- nom `preceded`. -/
def preceded {α β : Type} (p : Parser α) (q : Parser β) : Parser β :=
  pmap (pseq p q) Prod.snd

/-- nom `terminated`. -/
def terminated {α β : Type} (p : Parser α) (q : Parser β) : Parser α :=
  pmap (pseq p q) Prod.fst

/-- nom `delimited`. -/
def delimitedP {α β γ : Type} (a : Parser α) (b : Parser β) (c : Parser γ) : Parser β :=
  pmap (pseq a (pseq b c)) (fun x => x.2.1)

/-- Fueled worker for nom streaming `many0`.  nom stops the loop on
`Error`, propagates `Incomplete`, and fails if an iteration makes no
progress (infinite-loop protection); the fuel is an upper bound on the
number of iterations, always sufficient when called through `many0`. -/
def many0F {α : Type} (p : Parser α) : Nat → Parser (List α)
  | 0 => fun _ => .err
  | fuel + 1 => fun i =>
      match p i with
      | .err => .ok i []
      | .incomplete => .incomplete
      | .panicked => .panicked
      | .ok r v =>
          if r.length < i.length then
            match many0F p fuel r with
            | .ok r2 vs => .ok r2 (v :: vs)
            | .err => .err
            | .incomplete => .incomplete
            | .panicked => .panicked
          else .err

/-- nom streaming `many0`. -/
def many0 {α : Type} (p : Parser α) : Parser (List α) := fun i =>
  many0F p (i.length + 1) i

/-- nom streaming `many1`: one mandatory hit, then `many0`. -/
def many1 {α : Type} (p : Parser α) : Parser (List α) := fun i =>
  match p i with
  | .err => .err
  | .incomplete => .incomplete
  | .panicked => .panicked
  | .ok r v =>
      if r.length < i.length then
        match many0 p r with
        | .ok r2 vs => .ok r2 (v :: vs)
        | .err => .err
        | .incomplete => .incomplete
        | .panicked => .panicked
      else .err

/-- nom `separated_list1` with separator `sep`. -/
def sepBy1 {α β : Type} (sep : Parser β) (p : Parser α) : Parser (List α) :=
  pmap (pseq p (many0 (preceded sep p))) (fun x => x.1 :: x.2)

/-- nom `separated_list0`: an immediately failing item yields the empty
list. -/
def sepBy0 {α β : Type} (sep : Parser β) (p : Parser α) : Parser (List α) := fun i =>
  match sepBy1 sep p i with
  | .err => .ok i []
  | .ok r v => .ok r v
  | .incomplete => .incomplete
  | .panicked => .panicked

/-- Continuation byte 10xxxxxx of a UTF-8 sequence. -/
def contB (b : Byte) : Bool := 128 ≤ b && b ≤ 191

/-- UTF-8 validity of a byte sequence (strict, as Rust `str::from_utf8`:
no overlong forms, no surrogates, max U+10FFFF). -/
def validUtf8 : List Byte → Bool
  | [] => true
  | b :: rest =>
      if b ≤ 127 then validUtf8 rest
      else if 194 ≤ b && b ≤ 223 then
        match rest with
        | c1 :: r2 => contB c1 && validUtf8 r2
        | [] => false
      else if 224 ≤ b && b ≤ 239 then
        match rest with
        | c1 :: c2 :: r2 =>
            (if b = 224 then 160 ≤ c1 && c1 ≤ 191
             else if b = 237 then 128 ≤ c1 && c1 ≤ 159
             else contB c1) && contB c2 && validUtf8 r2
        | _ => false
      else if 240 ≤ b && b ≤ 244 then
        match rest with
        | c1 :: c2 :: c3 :: r2 =>
            (if b = 240 then 144 ≤ c1 && c1 ≤ 191
             else if b = 244 then 128 ≤ c1 && c1 ≤ 143
             else contB c1) && contB c2 && contB c3 && validUtf8 r2
        | _ => false
      else false

/-- Rust `str::from_utf8` as used under nom `map_res`: keep the byte view
when it is valid UTF-8, reject otherwise. -/
def fromUtf8 (l : List Byte) : Option (List Byte) :=
  if validUtf8 l then some l else none

/-- Modelled from the spec: atom character class of the missing core
module (`parser/core.rs` is not under `src/`) — a byte is an atom
character when it is not a control character, not DEL or a high byte, and
none of space, parentheses, percent, brace, double quote, backslash. -/
def is_atom_char (b : Byte) : Bool :=
  32 < b && b < 127 && !(b == 40) && !(b == 41) && !(b == 123) &&
    !(b == 37) && !(b == 34) && !(b == 92)

/-- Modelled from the spec: astring characters (the bare-token form of an
astring is an atom run). -/
def is_astring_char (b : Byte) : Bool := is_atom_char b

/-- Modelled from the spec: characters usable in free response text —
anything but the CR LF terminator bytes. -/
def is_text_char (b : Byte) : Bool := !(b == 13) && !(b == 10)

def is_digit_char (b : Byte) : Bool := 48 ≤ b && b ≤ 57

/-- Decimal value of a digit run. -/
def digitsToNat (l : List Byte) : Nat := l.foldl (fun acc b => acc * 10 + (b - 48)) 0

/-- Modelled from the spec: `number` of the missing core module — a
maximal non-empty run of decimal digits read as an unsigned 32-bit
integer; empty run or overflow is a failure. -/
def number : Parser Nat :=
  pmapRes (takeWhile1 is_digit_char)
    (fun l => if digitsToNat l < 2 ^ 32 then some (digitsToNat l) else none)

/-- Modelled from the spec: 64-bit number used by the mod-sequence
extension fields. -/
def number_64 : Parser Nat :=
  pmapRes (takeWhile1 is_digit_char)
    (fun l => if digitsToNat l < 2 ^ 64 then some (digitsToNat l) else none)

/-- Modelled from the spec: `nil` of the missing core module — the
case-insensitive `NIL` sentinel. -/
def nil : Parser Unit := tagNoCase (bytes ("NIL"))

/-- Scan the interior of a quoted string up to and including the closing
double quote, unescaping the two escape sequences; a bare CR or LF inside
is invalid; running out of input is `incomplete`. -/
def scanQuoted : Parser (List Byte)
  | [] => .incomplete
  | b :: rest =>
      if b = 34 then .ok rest []
      else if b = 92 then
        match rest with
        | [] => .incomplete
        | c :: rest2 =>
            if c = 34 ∨ c = 92 then
              match scanQuoted rest2 with
              | .ok r2 v => .ok r2 (c :: v)
              | .err => .err
              | .incomplete => .incomplete
              | .panicked => .panicked
            else .err
      else if b = 13 ∨ b = 10 then .err
      else
        match scanQuoted rest with
        | .ok r2 v => .ok r2 (b :: v)
        | .err => .err
        | .incomplete => .incomplete
        | .panicked => .panicked

/-- Modelled from the spec: quoted string of the missing core module
(raw-bytes view): delimited by double quotes, with backslash escapes for
the quote and the backslash. -/
def quoted : Parser (List Byte) := preceded (charP 34) scanQuoted

/-- Modelled from the spec: quoted string, text (UTF-8 validated) view. -/
def quoted_utf8 : Parser (List Byte) := pmapRes quoted fromUtf8

/-- Modelled from the spec: length-prefixed literal of the missing core
module: an octet count in braces, the line terminator, then exactly that
many raw bytes. -/
def literal : Parser (List Byte) :=
  pbind (delimitedP (charP 123) number (charP 125))
    (fun n => preceded (tagP (bytes ("\r\n"))) (takeN n))

/-- Modelled from the spec: literal with text (UTF-8 validated) view. -/
def literal_utf8 : Parser (List Byte) := pmapRes literal fromUtf8

/-- Modelled from the spec: a string is a quoted string or a literal. -/
def string_bytes : Parser (List Byte) := palt quoted literal

/-- Modelled from the spec: string, text view. -/
def string_utf8 : Parser (List Byte) := palt quoted_utf8 literal_utf8

/-- Modelled from the spec: `atom` of the missing core module — a maximal
non-empty run of atom characters, text view. -/
def atom : Parser (List Byte) := pmapRes (takeWhile1 is_atom_char) fromUtf8

/-- Modelled from the spec: `astring_utf8` of the missing core module — a
bare atom-character run, or a string (quoted or literal), text view. -/
def astring_utf8 : Parser (List Byte) :=
  palt (pmapRes (takeWhile1 is_astring_char) fromUtf8) string_utf8

/-- Modelled from the spec: `nstring` — the `NIL` sentinel for absent, or
a string (raw-bytes view). -/
def nstring : Parser (Option (List Byte)) :=
  palt (pmap nil (fun _ => none)) (pmap string_bytes some)

/-- Modelled from the spec: `nstring_utf8` — `NIL` for absent, or a
string, text view. -/
def nstring_utf8 : Parser (Option (List Byte)) :=
  palt (pmap nil (fun _ => none)) (pmap string_utf8 some)

/-- Modelled from the spec: free response text — a possibly empty run of
text characters, text view. -/
def text : Parser (List Byte) := pmapRes (takeWhileCore is_text_char) fromUtf8

/-- Modelled from the spec: parenthesized list of the missing core module
(the zero-items-allowed variant): items separated by single spaces inside
parentheses. -/
def parenthesized_list {α : Type} (f : Parser α) : Parser (List α) :=
  delimitedP (charP 40) (sepBy0 (charP 32) f) (charP 41)

/-- Modelled from the spec: the non-empty parenthesized list variant,
rejecting zero items. -/
def parenthesized_nonempty_list {α : Type} (f : Parser α) : Parser (List α) :=
  delimitedP (charP 40) (sepBy1 (charP 32) f) (charP 41)

/-- Modelled from the spec: a parser delimited by one pair of
parentheses. -/
def paren_delimited {α : Type} (f : Parser α) : Parser α :=
  delimitedP (charP 40) f (charP 41)

/-!  Data model.  The `types` module of the repository is not under
`src/`; the result types below are modelled from the data-model section
of the spec, with text payloads embedded as byte sequences. -/

/-- Modelled from the spec: condition of a status response. -/
inductive Status : Type where
  | Ok
  | No
  | Bad
  | PreAuth
  | Bye
deriving DecidableEq

/-- Modelled from the spec: the client-chosen tag echoed by a tagged
completion (owned string). -/
structure RequestId : Type where
  id : List Byte
deriving DecidableEq

/-- Modelled from the spec: an advertised capability. -/
inductive Capability : Type where
  | Imap4rev1
  | Auth (name : List Byte)
  | Atom (name : List Byte)
deriving DecidableEq

/-- Modelled from the spec: the bracketed response-code variants. -/
inductive ResponseCode : Type where
  | Alert
  | BadCharset (charsets : Option (List (List Byte)))
  | Capabilities (caps : List Capability)
  | Parse
  | PermanentFlags (flags : List (List Byte))
  | ReadOnly
  | ReadWrite
  | TryCreate
  | UidValidity (n : Nat)
  | UidNext (n : Nat)
  | Unseen (n : Nat)
  | HighestModSeq (n : Nat)
deriving DecidableEq

/-- Modelled from the spec: STATUS attributes, typed by attribute name. -/
inductive StatusAttribute : Type where
  | Messages (n : Nat)
  | Recent (n : Nat)
  | UidNext (n : Nat)
  | UidValidity (n : Nat)
  | Unseen (n : Nat)
  | HighestModSeq (n : Nat)
deriving DecidableEq

/-- Modelled from the spec: mailbox data of an untagged response. -/
inductive MailboxDatum : Type where
  | Flags (flags : List (List Byte))
  | Exists (n : Nat)
  | Recent (n : Nat)
  | List (flags : List (List Byte)) (delimiter : Option (List Byte)) (name : List Byte)
  | Status (mailbox : List Byte) (status : List StatusAttribute)
deriving DecidableEq

/-- Modelled from the spec: one electronic-mail address, four
independently nullable fields in fixed order. -/
structure Address : Type where
  name : Option (List Byte)
  adl : Option (List Byte)
  mailbox : Option (List Byte)
  host : Option (List Byte)
deriving DecidableEq

/-- Modelled from the spec: the message envelope record — two nullable
strings, six optional address lists, two nullable strings. -/
structure Envelope : Type where
  date : Option (List Byte)
  subject : Option (List Byte)
  from_ : Option (List Address)
  sender : Option (List Address)
  reply_to : Option (List Address)
  to_ : Option (List Address)
  cc : Option (List Address)
  bcc : Option (List Address)
  in_reply_to : Option (List Byte)
  message_id : Option (List Byte)
deriving DecidableEq

/-- Modelled from the spec: a MIME body-structure node — a single-part
leaf or a multipart interior node with child nodes (the body-structure
grammar modules are not under `src/`; this is the shape the spec
describes, with the leaf fields reduced to type, subtype and size). -/
inductive BodyStructure : Type where
  | Leaf (mediaType : List Byte) (subtype : List Byte) (size : Nat)
  | Multi (children : List BodyStructure) (subtype : List Byte)

/-- Modelled from the spec: per-message attribute values. -/
inductive AttributeValue : Type where
  | Envelope (e : Envelope)
  | InternalDate (date : List Byte)
  | Flags (flags : List (List Byte))
  | Rfc822 (raw : Option (List Byte))
  | Rfc822Header (raw : Option (List Byte))
  | Rfc822Size (n : Nat)
  | Rfc822Text (raw : Option (List Byte))
  | Uid (n : Nat)
  | BodyStructure (b : BodyStructure)
  | BodySection (sec : List Byte) (origin : Option Nat) (data : Option (List Byte))
  | ModSeq (n : Nat)

/-- Modelled from the spec: one parsed server response. -/
inductive Response : Type where
  | Capabilities (caps : List Capability)
  | Continue (code : Option ResponseCode) (information : Option (List Byte))
  | Data (status : Status) (code : Option ResponseCode) (information : Option (List Byte))
  | Done (tag : RequestId) (status : Status) (code : Option ResponseCode)
      (information : Option (List Byte))
  | Expunge (n : Nat)
  | Fetch (n : Nat) (attrs : List AttributeValue)
  | IDs (ids : List Nat)
  | MailboxData (d : MailboxDatum)
  | Enabled (caps : List Capability)
  | Metadata (mailbox : List Byte) (entries : List (List Byte))

/-!  The rfc3501 grammar (`src/imap-proto/src/parser/rfc3501/mod.rs`),
transcribed parser by parser.  Definitions appear in dependency order
rather than source order, since Lean requires declarations before use. -/

def is_tag_char (b : Byte) : Bool := !(b == 43) && is_astring_char b

def status_ok : Parser Status := pmap (tagNoCase (bytes ("OK"))) (fun _ => Status.Ok)

def status_no : Parser Status := pmap (tagNoCase (bytes ("NO"))) (fun _ => Status.No)

def status_bad : Parser Status := pmap (tagNoCase (bytes ("BAD"))) (fun _ => Status.Bad)

def status_preauth : Parser Status :=
  pmap (tagNoCase (bytes ("PREAUTH"))) (fun _ => Status.PreAuth)

def status_bye : Parser Status := pmap (tagNoCase (bytes ("BYE"))) (fun _ => Status.Bye)

def status : Parser Status :=
  palt status_ok (palt status_no (palt status_bad (palt status_preauth status_bye)))

/-- Mailbox names: an astring, with any casing of INBOX normalized to the
canonical literal and every other name passed through unchanged. -/
def mailbox : Parser (List Byte) :=
  pmap astring_utf8
    (fun s => if eqIgnoreAsciiCase s (bytes ("INBOX")) then bytes ("INBOX") else s)

def flag_extension : Parser (List Byte) :=
  pmapRes (pmap (preceded (tagP (bytes ("\\"))) (takeWhileCore is_atom_char))
    (fun run => 92 :: run)) fromUtf8

def flag : Parser (List Byte) := palt flag_extension atom

def flag_list : Parser (List (List Byte)) := parenthesized_list flag

def flag_perm : Parser (List Byte) :=
  palt (pmap (tagP (bytes ("\\*"))) (fun _ => bytes ("\\*"))) flag

def capability : Parser Capability :=
  palt (pmap (tagNoCase (bytes ("IMAP4rev1"))) (fun _ => Capability.Imap4rev1))
    (palt (pmap (preceded (tagNoCase (bytes ("AUTH="))) atom) Capability.Auth)
      (pmap atom Capability.Atom))

/-- Validation step of the capability-list grammar: the decoded list must
contain the IMAP4rev1 capability, otherwise the parse is rejected. -/
def ensure_capabilities_contains_imap4rev
    (capabilities : List Capability) : Option (List Capability) :=
  if Capability.Imap4rev1 ∈ capabilities then some capabilities else none

def capability_data : Parser (List Capability) :=
  pmapRes
    (preceded (tagNoCase (bytes ("CAPABILITY"))) (many0 (preceded (charP 32) capability)))
    ensure_capabilities_contains_imap4rev

/-- Modelled from the spec: rfc4551 extension splice — the 64-bit
mod-sequence response code (the rfc4551 module is not under `src/`). -/
def resp_text_code_highest_mod_seq : Parser ResponseCode :=
  pmap (preceded (tagNoCase (bytes ("HIGHESTMODSEQ "))) number_64) ResponseCode.HighestModSeq

/-- Modelled from the spec: rfc4551 extension splice — the mod-sequence
status attribute. -/
def status_att_val_highest_mod_seq : Parser StatusAttribute :=
  pmap (preceded (tagNoCase (bytes ("HIGHESTMODSEQ "))) number_64)
    StatusAttribute.HighestModSeq

/-- Modelled from the spec: rfc4551 extension splice — the mod-sequence
message attribute. -/
def msg_att_mod_seq : Parser AttributeValue :=
  pmap (preceded (tagNoCase (bytes ("MODSEQ "))) (paren_delimited number_64))
    AttributeValue.ModSeq

def resp_text_code_alert : Parser ResponseCode :=
  pmap (tagNoCase (bytes ("ALERT"))) (fun _ => ResponseCode.Alert)

def resp_text_code_badcharset : Parser ResponseCode :=
  pmap
    (preceded (tagNoCase (bytes ("BADCHARSET")))
      (popt (preceded (tagP (bytes (" "))) (parenthesized_nonempty_list astring_utf8))))
    ResponseCode.BadCharset

def resp_text_code_capability : Parser ResponseCode :=
  pmap capability_data ResponseCode.Capabilities

def resp_text_code_parse : Parser ResponseCode :=
  pmap (tagNoCase (bytes ("PARSE"))) (fun _ => ResponseCode.Parse)

def resp_text_code_permanent_flags : Parser ResponseCode :=
  pmap (preceded (tagNoCase (bytes ("PERMANENTFLAGS "))) (parenthesized_list flag_perm))
    ResponseCode.PermanentFlags

def resp_text_code_read_only : Parser ResponseCode :=
  pmap (tagNoCase (bytes ("READ-ONLY"))) (fun _ => ResponseCode.ReadOnly)

def resp_text_code_read_write : Parser ResponseCode :=
  pmap (tagNoCase (bytes ("READ-WRITE"))) (fun _ => ResponseCode.ReadWrite)

def resp_text_code_try_create : Parser ResponseCode :=
  pmap (tagNoCase (bytes ("TRYCREATE"))) (fun _ => ResponseCode.TryCreate)

def resp_text_code_uid_validity : Parser ResponseCode :=
  pmap (preceded (tagNoCase (bytes ("UIDVALIDITY "))) number) ResponseCode.UidValidity

def resp_text_code_uid_next : Parser ResponseCode :=
  pmap (preceded (tagNoCase (bytes ("UIDNEXT "))) number) ResponseCode.UidNext

def resp_text_code_unseen : Parser ResponseCode :=
  pmap (preceded (tagNoCase (bytes ("UNSEEN "))) number) ResponseCode.Unseen

/-- The bracketed response-code segment.  The closing bracket is matched
without the trailing space the protocol nominally requires; see
`resp_text`. -/
def resp_text_code : Parser ResponseCode :=
  delimitedP (tagP (bytes ("[")))
    (palt resp_text_code_alert
      (palt resp_text_code_badcharset
        (palt resp_text_code_capability
          (palt resp_text_code_parse
            (palt resp_text_code_permanent_flags
              (palt resp_text_code_uid_validity
                (palt resp_text_code_uid_next
                  (palt resp_text_code_unseen
                    (palt resp_text_code_read_only
                      (palt resp_text_code_read_write
                        (palt resp_text_code_try_create
                          resp_text_code_highest_mod_seq)))))))))))
    (tagP (bytes ("]")))

def resp_capability : Parser Response := pmap capability_data Response.Capabilities

def mailbox_data_search : Parser Response :=
  pmap (preceded (tagNoCase (bytes ("SEARCH"))) (many0 (preceded (tagP (bytes (" "))) number)))
    Response.IDs

def mailbox_data_flags : Parser Response :=
  pmap (preceded (tagNoCase (bytes ("FLAGS "))) flag_list)
    (fun flags => Response.MailboxData (MailboxDatum.Flags flags))

def mailbox_data_exists : Parser Response :=
  pmap (terminated number (tagNoCase (bytes (" EXISTS"))))
    (fun num => Response.MailboxData (MailboxDatum.Exists num))

def mailbox_list : Parser (List (List Byte) × Option (List Byte) × List Byte) :=
  pmap
    (pseq flag_list
      (pseq (tagP (bytes (" ")))
        (pseq (palt (pmap quoted_utf8 some) (pmap nil (fun _ => none)))
          (pseq (tagP (bytes (" "))) mailbox))))
    (fun x =>
      match x with
      | (flags, _, delimiter, _, name) => (flags, delimiter, name))

def mailbox_data_list : Parser Response :=
  pmap (preceded (tagNoCase (bytes ("LIST "))) mailbox_list)
    (fun data => Response.MailboxData (MailboxDatum.List data.1 data.2.1 data.2.2))

def mailbox_data_lsub : Parser Response :=
  pmap (preceded (tagNoCase (bytes ("LSUB "))) mailbox_list)
    (fun data => Response.MailboxData (MailboxDatum.List data.1 data.2.1 data.2.2))

def status_att : Parser StatusAttribute :=
  palt status_att_val_highest_mod_seq
    (palt (pmap (preceded (tagNoCase (bytes ("MESSAGES "))) number) StatusAttribute.Messages)
      (palt (pmap (preceded (tagNoCase (bytes ("RECENT "))) number) StatusAttribute.Recent)
        (palt (pmap (preceded (tagNoCase (bytes ("UIDNEXT "))) number) StatusAttribute.UidNext)
          (palt
            (pmap (preceded (tagNoCase (bytes ("UIDVALIDITY "))) number)
              StatusAttribute.UidValidity)
            (pmap (preceded (tagNoCase (bytes ("UNSEEN "))) number)
              StatusAttribute.Unseen)))))

def status_att_list : Parser (List StatusAttribute) :=
  parenthesized_nonempty_list status_att

def mailbox_data_status : Parser Response :=
  pmap
    (pseq (tagNoCase (bytes ("STATUS ")))
      (pseq mailbox (pseq (tagP (bytes (" "))) status_att_list)))
    (fun x =>
      match x with
      | (_, mb, _, st) => Response.MailboxData (MailboxDatum.Status mb st))

def mailbox_data_recent : Parser Response :=
  pmap (terminated number (tagNoCase (bytes (" RECENT"))))
    (fun num => Response.MailboxData (MailboxDatum.Recent num))

def mailbox_data : Parser Response :=
  palt mailbox_data_flags
    (palt mailbox_data_exists
      (palt mailbox_data_list
        (palt mailbox_data_lsub
          (palt mailbox_data_status
            (palt mailbox_data_recent mailbox_data_search)))))

/-- An address structure: a parenthesized 4-tuple of nullable strings. -/
def address : Parser Address :=
  paren_delimited
    (pmap
      (pseq nstring
        (pseq (tagP (bytes (" ")))
          (pseq nstring
            (pseq (tagP (bytes (" ")))
              (pseq nstring (pseq (tagP (bytes (" "))) nstring))))))
      (fun x =>
        match x with
        | (name, _, adl, _, mb, _, host) => Address.mk name adl mb host))

/-- Either the NIL sentinel, or a parenthesized sequence of one or more
addresses, each optionally followed by a single space (real servers omit
the separating space). -/
def opt_addresses : Parser (Option (List Address)) :=
  palt (pmap nil (fun _ => none))
    (pmap (paren_delimited (many1 (terminated address (popt (charP 32))))) some)

/-- The envelope: a parenthesized 10-field tuple in fixed wire order. -/
def envelope : Parser Envelope :=
  paren_delimited
    (pmap
      (pseq nstring
        (pseq (tagP (bytes (" ")))
          (pseq nstring
            (pseq (tagP (bytes (" ")))
              (pseq opt_addresses
                (pseq (tagP (bytes (" ")))
                  (pseq opt_addresses
                    (pseq (tagP (bytes (" ")))
                      (pseq opt_addresses
                        (pseq (tagP (bytes (" ")))
                          (pseq opt_addresses
                            (pseq (tagP (bytes (" ")))
                              (pseq opt_addresses
                                (pseq (tagP (bytes (" ")))
                                  (pseq opt_addresses
                                    (pseq (tagP (bytes (" ")))
                                      (pseq nstring
                                        (pseq (tagP (bytes (" ")))
                                          nstring))))))))))))))))))
      (fun x =>
        match x with
        | (date, _, subject, _, from_, _, sender, _, reply_to, _, to_, _, cc, _,
            bcc, _, in_reply_to, _, message_id) =>
            Envelope.mk date subject from_ sender reply_to to_ cc bcc
              in_reply_to message_id))

def msg_att_envelope : Parser AttributeValue :=
  pmap (preceded (tagNoCase (bytes ("ENVELOPE "))) envelope) AttributeValue.Envelope

/-- The INTERNALDATE attribute.  The source maps the nullable string
through Rust `unwrap()`: an absent date does not produce a parse error
but a panic, modelled by the `panicked` outcome. -/
def msg_att_internal_date : Parser AttributeValue :=
  pmapUnwrap (preceded (tagNoCase (bytes ("INTERNALDATE "))) nstring_utf8)
    (fun date => date.map AttributeValue.InternalDate)

def msg_att_flags : Parser AttributeValue :=
  pmap (preceded (tagNoCase (bytes ("FLAGS "))) flag_list) AttributeValue.Flags

def msg_att_rfc822 : Parser AttributeValue :=
  pmap (preceded (tagNoCase (bytes ("RFC822 "))) nstring) AttributeValue.Rfc822

def msg_att_rfc822_header : Parser AttributeValue :=
  pmap
    (pseq (tagNoCase (bytes ("RFC822.HEADER "))) (pseq (popt (tagP (bytes (" ")))) nstring))
    (fun x => AttributeValue.Rfc822Header x.2.2)

def msg_att_rfc822_size : Parser AttributeValue :=
  pmap (preceded (tagNoCase (bytes ("RFC822.SIZE "))) number) AttributeValue.Rfc822Size

def msg_att_rfc822_text : Parser AttributeValue :=
  pmap (preceded (tagNoCase (bytes ("RFC822.TEXT "))) nstring) AttributeValue.Rfc822Text

def msg_att_uid : Parser AttributeValue :=
  pmap (preceded (tagNoCase (bytes ("UID "))) number) AttributeValue.Uid

/-- Modelled from the spec: recursive MIME body-structure node parser
(fuel-bounded recursion on the shrinking input; the body-structure
modules are not under `src/`). -/
def bodyF : Nat → Parser BodyStructure
  | 0 => fun _ => .err
  | fuel + 1 =>
      paren_delimited
        (palt
          (pmap (pseq (many1 (bodyF fuel)) (preceded (charP 32) string_utf8))
            (fun x => BodyStructure.Multi x.1 x.2))
          (pmap
            (pseq string_utf8
              (pseq (preceded (charP 32) string_utf8) (preceded (charP 32) number)))
            (fun x => BodyStructure.Leaf x.1 x.2.1 x.2.2)))

/-- Modelled from the spec: a body node, with fuel drawn from the input
length (recursion depth is bounded by the input size). -/
def body : Parser BodyStructure := fun i => bodyF (i.length + 1) i

/-- Modelled from the spec: the BODYSTRUCTURE / BODY message attribute
(the body-structure module is not under `src/`). -/
def msg_att_body_structure : Parser AttributeValue :=
  pmap
    (preceded (palt (tagNoCase (bytes ("BODYSTRUCTURE "))) (tagNoCase (bytes ("BODY "))))
      body)
    AttributeValue.BodyStructure

/-- Modelled from the spec: the BODY[...] section-fetch attribute (the
body module is not under `src/`): a bracketed section spec, an optional
origin octet, then the section data as a nullable string. -/
def msg_att_body_section : Parser AttributeValue :=
  pmap
    (pseq (tagNoCase (bytes ("BODY[")))
      (pseq (takeWhileCore (fun b => !(b == 93)))
        (pseq (tagP (bytes ("]")))
          (pseq
            (popt
              (pmap (pseq (tagP (bytes ("<"))) (pseq number (tagP (bytes (">")))))
                (fun x => x.2.1)))
            (pseq (charP 32) nstring)))))
    (fun x =>
      match x with
      | (_, sec, _, origin, _, data) => AttributeValue.BodySection sec origin data)

def msg_att : Parser AttributeValue :=
  palt msg_att_body_section
    (palt msg_att_body_structure
      (palt msg_att_envelope
        (palt msg_att_internal_date
          (palt msg_att_flags
            (palt msg_att_mod_seq
              (palt msg_att_rfc822
                (palt msg_att_rfc822_header
                  (palt msg_att_rfc822_size
                    (palt msg_att_rfc822_text msg_att_uid)))))))))

def msg_att_list : Parser (List AttributeValue) := parenthesized_nonempty_list msg_att

def message_data_fetch : Parser Response :=
  pmap (pseq number (pseq (tagNoCase (bytes (" FETCH "))) msg_att_list))
    (fun x => Response.Fetch x.1 x.2.2)

def message_data_expunge : Parser Response :=
  pmap (terminated number (tagNoCase (bytes (" EXPUNGE")))) Response.Expunge

def imap_tag : Parser RequestId :=
  pmap (pmapRes (takeWhile1 is_tag_char) fromUtf8) RequestId.mk

/-- The Rust byte slice of a string from index 1: defined when byte
index 1 lies on a character boundary — the end of the string, or a byte
that is not a UTF-8 continuation byte — and a panic (`none`) otherwise,
exactly as Rust `str` indexing behaves on the valid-UTF-8 output of
`text`. -/
def sliceFrom1 : List Byte → Option (List Byte)
  | [] => none
  | [_] => some []
  | _ :: r1 :: rest => if contB r1 then none else some (r1 :: rest)

/-- Response text: an optional bracketed code, then free text.  When the
text is empty the information is absent; when a code is present the
source slices the non-empty text from byte index 1 (nominally dropping
the separating space) — a `str` slice that panics when the text starts
with a multi-byte UTF-8 character. -/
def resp_text : Parser (Option ResponseCode × Option (List Byte)) :=
  pmapUnwrap (pseq (popt resp_text_code) text)
    (fun x =>
      if x.2 = [] then some (x.1, none)
      else if x.1.isSome then Option.map (fun s2 => (x.1, some s2)) (sliceFrom1 x.2)
      else some (x.1, some x.2))

def continue_req : Parser Response :=
  pmap
    (pseq (tagP (bytes ("+")))
      (pseq (popt (tagP (bytes (" ")))) (pseq resp_text (tagP (bytes ("\r\n"))))))
    (fun x => Response.Continue x.2.2.1.1 x.2.2.1.2)

def response_tagged : Parser Response :=
  pmap
    (pseq imap_tag
      (pseq (tagP (bytes (" ")))
        (pseq status
          (pseq (tagP (bytes (" "))) (pseq resp_text (tagP (bytes ("\r\n"))))))))
    (fun x =>
      match x with
      | (tg, _, st, _, txt, _) => Response.Done tg st txt.1 txt.2)

def resp_cond : Parser Response :=
  pmap (pseq status (pseq (tagP (bytes (" "))) resp_text))
    (fun x => Response.Data x.1 x.2.2.1 x.2.2.2)

/-- Modelled from the spec: rfc5464 extension splice — the METADATA
untagged response (the rfc5464 module is not under `src/`). -/
def resp_metadata : Parser Response :=
  pmap
    (pseq (tagNoCase (bytes ("METADATA ")))
      (pseq mailbox (pseq (charP 32) (parenthesized_nonempty_list astring_utf8))))
    (fun x => Response.Metadata x.2.1 x.2.2.2)

/-- Modelled from the spec: rfc5161 extension splice — the ENABLED
untagged response (the rfc5161 module is not under `src/`). -/
def resp_enabled : Parser Response :=
  pmap (preceded (tagNoCase (bytes ("ENABLED"))) (many0 (preceded (charP 32) capability)))
    Response.Enabled

def response_data : Parser Response :=
  delimitedP (tagP (bytes ("* ")))
    (palt resp_cond
      (palt mailbox_data
        (palt message_data_expunge
          (palt message_data_fetch
            (palt resp_capability (palt resp_metadata resp_enabled))))))
    (tagP (bytes ("\r\n")))

def response : Parser Response :=
  palt continue_req (palt response_data response_tagged)

def parse_response : Parser Response := response

/-- Concatenation of address wire forms with no separating space. -/
def joinAdj : List (List Byte) → List Byte
  | [] => []
  | s :: rest => s ++ joinAdj rest

/-- Concatenation of address wire forms with a single separating space. -/
def joinSp : List (List Byte) → List Byte
  | [] => []
  | [s] => s
  | s :: rest => s ++ 32 :: joinSp rest

/-- A parser only consumes a prefix: on success the rest is a suffix of
the input. -/
def Consumes {α : Type} (p : Parser α) : Prop :=
  ∀ i r v, p i = .ok r v → ∃ pre, i = pre ++ r

/-!  Generic lemmas about the combinators: inversion of success, and the
`Consumes` (suffix) property. -/

theorem pmap_inv {α β : Type} {p : Parser α} {f : α → β} {i r : List Byte} {v : β}
    (h : pmap p f i = .ok r v) : ∃ a, p i = .ok r a ∧ v = f a := by
  cases hpi : p i
  case ok r0 a =>
    simp only [pmap, hpi, PResult.ok.injEq] at h
    obtain ⟨rfl, rfl⟩ := h
    exact ⟨a, rfl, rfl⟩
  all_goals simp [pmap, hpi] at h

theorem pmapRes_inv {α β : Type} {p : Parser α} {f : α → Option β} {i r : List Byte} {v : β}
    (h : pmapRes p f i = .ok r v) : ∃ a, p i = .ok r a ∧ f a = some v := by
  cases hpi : p i
  case ok r0 a =>
    cases hfa : f a
    case some b =>
      simp only [pmapRes, hpi, hfa, PResult.ok.injEq] at h
      obtain ⟨rfl, rfl⟩ := h
      exact ⟨a, rfl, hfa⟩
    case none => simp [pmapRes, hpi, hfa] at h
  all_goals simp [pmapRes, hpi] at h

theorem pseq_inv {α β : Type} {p : Parser α} {q : Parser β} {i r : List Byte} {v : α × β}
    (h : pseq p q i = .ok r v) :
    ∃ m a b, p i = .ok m a ∧ q m = .ok r b ∧ v = (a, b) := by
  cases hpi : p i
  case ok m a =>
    cases hq : q m
    case ok r2 b =>
      simp only [pseq, hpi, hq, PResult.ok.injEq] at h
      obtain ⟨rfl, rfl⟩ := h
      exact ⟨m, a, b, rfl, hq, rfl⟩
    all_goals simp [pseq, hpi, hq] at h
  all_goals simp [pseq, hpi] at h

theorem palt_inv {α : Type} {p q : Parser α} {i : List Byte} {x : PResult α}
    (h : palt p q i = x) :
    p i = x ∨ (p i = .err ∧ q i = x) := by
  cases hpi : p i
  case err =>
    simp only [palt, hpi] at h
    exact Or.inr ⟨rfl, h⟩
  all_goals
    simp only [palt, hpi] at h
    exact Or.inl h

theorem charP_inv {c : Byte} {i r : List Byte} {v : Byte}
    (h : charP c i = .ok r v) : i = c :: r ∧ v = c := by
  cases i with
  | nil => simp [charP] at h
  | cons b t =>
      by_cases hb : b = c
      · simp only [charP, hb, if_pos, PResult.ok.injEq] at h
        obtain ⟨rfl, rfl⟩ := h
        exact ⟨by rw [hb], rfl⟩
      · simp [charP, hb] at h

theorem tagCore_ok {eqb : Byte → Byte → Bool} {t i r : List Byte} {u : Unit}
    (h : tagCore eqb t i = .ok r u) :
    ∃ pre, pre.length = t.length ∧ i = pre ++ r := by
  induction t generalizing i with
  | nil =>
      simp only [tagCore, PResult.ok.injEq] at h
      exact ⟨[], rfl, by simp [h.1]⟩
  | cons a t1 ih =>
      cases i with
      | nil => simp [tagCore] at h
      | cons b i1 =>
          by_cases hb : eqb a b = true
          · simp only [tagCore, hb, if_true] at h
            obtain ⟨pre, hlen, hpre⟩ := ih h
            exact ⟨b :: pre, by simp [hlen], by simp [hpre]⟩
          · simp [tagCore, hb] at h

theorem tagP_ok {t i r : List Byte} {u : Unit} (h : tagP t i = .ok r u) : i = t ++ r := by
  induction t generalizing i with
  | nil =>
      simp only [tagP, tagCore, PResult.ok.injEq] at h
      simpa using h.1
  | cons a t1 ih =>
      cases i with
      | nil => simp [tagP, tagCore] at h
      | cons b i1 =>
          by_cases hb : (a == b) = true
          · simp only [tagP, tagCore, hb, if_true] at h
            have hab : a = b := by simpa using hb
            have h2 := ih h
            simp [hab, h2]
          · simp [tagP, tagCore, hb] at h

theorem con_tagCore (eqb : Byte → Byte → Bool) (t : List Byte) :
    Consumes (tagCore eqb t) := by
  intro i r v h
  obtain ⟨pre, _, hpre⟩ := tagCore_ok h
  exact ⟨pre, hpre⟩

theorem con_tagP (t : List Byte) : Consumes (tagP t) := con_tagCore _ t

theorem con_tagNoCase (t : List Byte) : Consumes (tagNoCase t) := con_tagCore _ t

theorem con_charP (c : Byte) : Consumes (charP c) := by
  intro i r v h
  obtain ⟨hi, _⟩ := charP_inv h
  exact ⟨[c], by simp [hi]⟩

theorem con_takeWhileCore (f : Byte → Bool) : Consumes (takeWhileCore f) := by
  intro i
  induction i with
  | nil => intro r v h; simp [takeWhileCore] at h
  | cons b t ih =>
      intro r v h
      by_cases hb : f b = true
      · cases ht : takeWhileCore f t with
        | ok r2 v2 =>
            simp only [takeWhileCore, hb, if_true, ht, PResult.ok.injEq] at h
            obtain ⟨rfl, rfl⟩ := h
            obtain ⟨pre, hpre⟩ := ih _ _ ht
            exact ⟨b :: pre, by simp [hpre]⟩
        | err => simp [takeWhileCore, hb, ht] at h
        | incomplete => simp [takeWhileCore, hb, ht] at h
        | panicked => simp [takeWhileCore, hb, ht] at h
      · simp only [takeWhileCore, hb, if_false, PResult.ok.injEq] at h
        obtain ⟨rfl, rfl⟩ := h
        exact ⟨[], rfl⟩

theorem con_takeWhile1 (f : Byte → Bool) : Consumes (takeWhile1 f) := by
  intro i r v h
  cases ht : takeWhileCore f i
  case ok r2 v2 =>
    cases v2 with
    | nil => simp [takeWhile1, ht] at h
    | cons b v3 =>
        simp only [takeWhile1, ht, PResult.ok.injEq] at h
        obtain ⟨rfl, rfl⟩ := h
        exact con_takeWhileCore f i _ _ ht
  all_goals simp [takeWhile1, ht] at h

theorem con_takeN (n : Nat) : Consumes (takeN n) := by
  intro i r v h
  by_cases hl : i.length < n
  · simp [takeN, hl] at h
  · simp only [takeN, hl, if_false, PResult.ok.injEq] at h
    obtain ⟨rfl, rfl⟩ := h
    exact ⟨i.take n, (List.take_append_drop n i).symm⟩

theorem con_pmap {α β : Type} {p : Parser α} (hp : Consumes p) (f : α → β) :
    Consumes (pmap p f) := by
  intro i r v h
  obtain ⟨a, ha, _⟩ := pmap_inv h
  exact hp i r a ha

theorem con_pmapRes {α β : Type} {p : Parser α} (hp : Consumes p) (f : α → Option β) :
    Consumes (pmapRes p f) := by
  intro i r v h
  obtain ⟨a, ha, _⟩ := pmapRes_inv h
  exact hp i r a ha

theorem con_pmapUnwrap {α β : Type} {p : Parser α} (hp : Consumes p) (f : α → Option β) :
    Consumes (pmapUnwrap p f) := by
  intro i r v h
  cases hpi : p i
  case ok r0 a =>
    cases hfa : f a
    case some b =>
      simp only [pmapUnwrap, hpi, hfa, PResult.ok.injEq] at h
      obtain ⟨rfl, rfl⟩ := h
      exact hp i r0 a hpi
    case none => simp [pmapUnwrap, hpi, hfa] at h
  all_goals simp [pmapUnwrap, hpi] at h

theorem con_pseq {α β : Type} {p : Parser α} {q : Parser β}
    (hp : Consumes p) (hq : Consumes q) : Consumes (pseq p q) := by
  intro i r v h
  obtain ⟨m, a, b, hm, hr, _⟩ := pseq_inv h
  obtain ⟨pre1, h1⟩ := hp i m a hm
  obtain ⟨pre2, h2⟩ := hq m r b hr
  exact ⟨pre1 ++ pre2, by simp [h1, h2]⟩

theorem con_pbind {α β : Type} {p : Parser α} {f : α → Parser β}
    (hp : Consumes p) (hf : ∀ a, Consumes (f a)) : Consumes (pbind p f) := by
  intro i r v h
  cases hpi : p i
  case ok m a =>
    simp only [pbind, hpi] at h
    obtain ⟨pre1, h1⟩ := hp i m a hpi
    obtain ⟨pre2, h2⟩ := hf a m r v h
    exact ⟨pre1 ++ pre2, by simp [h1, h2]⟩
  all_goals simp [pbind, hpi] at h

theorem con_popt {α : Type} {p : Parser α} (hp : Consumes p) : Consumes (popt p) := by
  intro i r v h
  cases hpi : p i
  case ok r0 a =>
    simp only [popt, hpi, PResult.ok.injEq] at h
    obtain ⟨rfl, rfl⟩ := h
    exact hp i r0 a hpi
  case err =>
    simp only [popt, hpi, PResult.ok.injEq] at h
    obtain ⟨rfl, rfl⟩ := h
    exact ⟨[], rfl⟩
  all_goals simp [popt, hpi] at h

theorem con_palt {α : Type} {p q : Parser α} (hp : Consumes p) (hq : Consumes q) :
    Consumes (palt p q) := by
  intro i r v h
  rcases palt_inv h with h1 | ⟨_, h2⟩
  · exact hp i r v h1
  · exact hq i r v h2

theorem con_preceded {α β : Type} {p : Parser α} {q : Parser β}
    (hp : Consumes p) (hq : Consumes q) : Consumes (preceded p q) :=
  con_pmap (con_pseq hp hq) _

theorem con_terminated {α β : Type} {p : Parser α} {q : Parser β}
    (hp : Consumes p) (hq : Consumes q) : Consumes (terminated p q) :=
  con_pmap (con_pseq hp hq) _

theorem con_delimitedP {α β γ : Type} {a : Parser α} {b : Parser β} {c : Parser γ}
    (ha : Consumes a) (hb : Consumes b) (hc : Consumes c) :
    Consumes (delimitedP a b c) :=
  con_pmap (con_pseq ha (con_pseq hb hc)) _

theorem con_many0F {α : Type} {p : Parser α} (hp : Consumes p) :
    ∀ fuel, Consumes (many0F p fuel) := by
  intro fuel
  induction fuel with
  | zero => intro i r v h; cases h
  | succ n ih =>
      intro i r v h
      cases hpi : p i
      case err =>
        simp only [many0F, hpi, PResult.ok.injEq] at h
        obtain ⟨rfl, rfl⟩ := h
        exact ⟨[], rfl⟩
      case ok m a =>
        by_cases hl : m.length < i.length
        · cases hm : many0F p n m with
          | ok r2 vs =>
              simp only [many0F, hpi, hl, if_true, hm, PResult.ok.injEq] at h
              obtain ⟨rfl, rfl⟩ := h
              obtain ⟨pre1, h1⟩ := hp i m a hpi
              obtain ⟨pre2, h2⟩ := ih m r2 vs hm
              exact ⟨pre1 ++ pre2, by simp [h1, h2]⟩
          | err => simp [many0F, hpi, hl, hm] at h
          | incomplete => simp [many0F, hpi, hl, hm] at h
          | panicked => simp [many0F, hpi, hl, hm] at h
        · simp [many0F, hpi, hl] at h
      all_goals simp [many0F, hpi] at h

theorem con_many0 {α : Type} {p : Parser α} (hp : Consumes p) : Consumes (many0 p) := by
  intro i r v h
  exact con_many0F hp (i.length + 1) i r v h

theorem con_many1 {α : Type} {p : Parser α} (hp : Consumes p) : Consumes (many1 p) := by
  intro i r v h
  cases hpi : p i
  case ok m a =>
    by_cases hl : m.length < i.length
    · cases hm : many0 p m with
      | ok r2 vs =>
          simp only [many1, hpi, hl, if_true, hm, PResult.ok.injEq] at h
          obtain ⟨rfl, rfl⟩ := h
          obtain ⟨pre1, h1⟩ := hp i m a hpi
          obtain ⟨pre2, h2⟩ := con_many0 hp m r2 vs hm
          exact ⟨pre1 ++ pre2, by simp [h1, h2]⟩
      | err => simp [many1, hpi, hl, hm] at h
      | incomplete => simp [many1, hpi, hl, hm] at h
      | panicked => simp [many1, hpi, hl, hm] at h
    · simp [many1, hpi, hl] at h
  all_goals simp [many1, hpi] at h

theorem con_sepBy1 {α β : Type} {sep : Parser β} {p : Parser α}
    (hs : Consumes sep) (hp : Consumes p) : Consumes (sepBy1 sep p) :=
  con_pmap (con_pseq hp (con_many0 (con_preceded hs hp))) _

theorem con_sepBy0 {α β : Type} {sep : Parser β} {p : Parser α}
    (hs : Consumes sep) (hp : Consumes p) : Consumes (sepBy0 sep p) := by
  intro i r v h
  cases h1 : sepBy1 sep p i
  case ok r0 v0 =>
    simp only [sepBy0, h1, PResult.ok.injEq] at h
    obtain ⟨rfl, rfl⟩ := h
    exact con_sepBy1 hs hp i r0 v0 h1
  case err =>
    simp only [sepBy0, h1, PResult.ok.injEq] at h
    obtain ⟨rfl, rfl⟩ := h
    exact ⟨[], rfl⟩
  all_goals simp [sepBy0, h1] at h

theorem con_parenthesized_list {α : Type} {f : Parser α} (hf : Consumes f) :
    Consumes (parenthesized_list f) :=
  con_delimitedP (con_charP 40) (con_sepBy0 (con_charP 32) hf) (con_charP 41)

theorem con_parenthesized_nonempty_list {α : Type} {f : Parser α} (hf : Consumes f) :
    Consumes (parenthesized_nonempty_list f) :=
  con_delimitedP (con_charP 40) (con_sepBy1 (con_charP 32) hf) (con_charP 41)

theorem con_paren_delimited {α : Type} {f : Parser α} (hf : Consumes f) :
    Consumes (paren_delimited f) :=
  con_delimitedP (con_charP 40) hf (con_charP 41)

/-!  `Consumes` for every named parser of the grammar. -/

theorem con_nil : Consumes nil := con_tagNoCase _

theorem con_number : Consumes number := con_pmapRes (con_takeWhile1 _) _

theorem con_number_64 : Consumes number_64 := con_pmapRes (con_takeWhile1 _) _

theorem con_scanQuoted : Consumes scanQuoted := by
  have key : ∀ n (i : List Byte), i.length ≤ n →
      ∀ r v, scanQuoted i = .ok r v → ∃ pre, i = pre ++ r := by
    intro n
    induction n with
    | zero =>
        intro i hl r v h
        cases i with
        | nil => simp [scanQuoted] at h
        | cons b t => simp at hl
    | succ n ih =>
        intro i hl r v h
        cases i with
        | nil => simp [scanQuoted] at h
        | cons b t =>
            cases t with
            | nil =>
                simp only [scanQuoted] at h
                split_ifs at h with h34 h92 hcr
                simp only [PResult.ok.injEq] at h
                exact ⟨[b], by simp [← h.1]⟩
            | cons c t2 =>
                simp only [scanQuoted] at h
                split_ifs at h with h34 h92 hc hcr
                · simp only [PResult.ok.injEq] at h
                  exact ⟨[b], by simp [← h.1]⟩
                · cases hs : scanQuoted t2 with
                  | ok r2 v2 =>
                      rw [hs] at h
                      simp only [PResult.ok.injEq] at h
                      have hlen : t2.length ≤ n := by simp at hl; omega
                      obtain ⟨pre, hpre⟩ := ih t2 hlen r2 v2 hs
                      exact ⟨b :: c :: pre, by simp [hpre, h.1]⟩
                  | err => rw [hs] at h; cases h
                  | incomplete => rw [hs] at h; cases h
                  | panicked => rw [hs] at h; cases h
                · cases hs : scanQuoted (c :: t2) with
                  | ok r2 v2 =>
                      rw [hs] at h
                      simp only [PResult.ok.injEq] at h
                      have hlen : (c :: t2).length ≤ n := by simp at hl; simp; omega
                      obtain ⟨pre, hpre⟩ := ih (c :: t2) hlen r2 v2 hs
                      exact ⟨b :: pre, by simp [hpre, h.1]⟩
                  | err => rw [hs] at h; cases h
                  | incomplete => rw [hs] at h; cases h
                  | panicked => rw [hs] at h; cases h
  intro i r v h
  exact key i.length i le_rfl r v h

theorem con_quoted : Consumes quoted := con_preceded (con_charP 34) con_scanQuoted

theorem con_quoted_utf8 : Consumes quoted_utf8 := con_pmapRes con_quoted _

theorem con_literal : Consumes literal :=
  con_pbind (con_delimitedP (con_charP 123) con_number (con_charP 125))
    (fun n => con_preceded (con_tagP _) (con_takeN n))

theorem con_literal_utf8 : Consumes literal_utf8 := con_pmapRes con_literal _

theorem con_string_bytes : Consumes string_bytes := con_palt con_quoted con_literal

theorem con_string_utf8 : Consumes string_utf8 := con_palt con_quoted_utf8 con_literal_utf8

theorem con_atom : Consumes atom := con_pmapRes (con_takeWhile1 _) _

theorem con_astring_utf8 : Consumes astring_utf8 :=
  con_palt (con_pmapRes (con_takeWhile1 _) _) con_string_utf8

theorem con_nstring : Consumes nstring :=
  con_palt (con_pmap con_nil _) (con_pmap con_string_bytes _)

theorem con_nstring_utf8 : Consumes nstring_utf8 :=
  con_palt (con_pmap con_nil _) (con_pmap con_string_utf8 _)

theorem con_text : Consumes text := con_pmapRes (con_takeWhileCore _) _

theorem con_status : Consumes status :=
  con_palt (con_pmap (con_tagNoCase _) _)
    (con_palt (con_pmap (con_tagNoCase _) _)
      (con_palt (con_pmap (con_tagNoCase _) _)
        (con_palt (con_pmap (con_tagNoCase _) _) (con_pmap (con_tagNoCase _) _))))

theorem con_mailbox : Consumes mailbox := con_pmap con_astring_utf8 _

theorem con_flag_extension : Consumes flag_extension :=
  con_pmapRes (con_pmap (con_preceded (con_tagP _) (con_takeWhileCore _)) _) _

theorem con_flag : Consumes flag := con_palt con_flag_extension con_atom

theorem con_flag_list : Consumes flag_list := con_parenthesized_list con_flag

theorem con_flag_perm : Consumes flag_perm :=
  con_palt (con_pmap (con_tagP _) _) con_flag

theorem con_capability : Consumes capability :=
  con_palt (con_pmap (con_tagNoCase _) _)
    (con_palt (con_pmap (con_preceded (con_tagNoCase _) con_atom) _)
      (con_pmap con_atom _))

theorem con_capability_data : Consumes capability_data :=
  con_pmapRes
    (con_preceded (con_tagNoCase _) (con_many0 (con_preceded (con_charP 32) con_capability)))
    _

theorem con_resp_text_code_highest_mod_seq : Consumes resp_text_code_highest_mod_seq :=
  con_pmap (con_preceded (con_tagNoCase _) con_number_64) _

theorem con_status_att_val_highest_mod_seq : Consumes status_att_val_highest_mod_seq :=
  con_pmap (con_preceded (con_tagNoCase _) con_number_64) _

theorem con_msg_att_mod_seq : Consumes msg_att_mod_seq :=
  con_pmap (con_preceded (con_tagNoCase _) (con_paren_delimited con_number_64)) _

theorem con_resp_text_code : Consumes resp_text_code :=
  con_delimitedP (con_tagP _)
    (con_palt (con_pmap (con_tagNoCase _) _)
      (con_palt
        (con_pmap
          (con_preceded (con_tagNoCase _)
            (con_popt (con_preceded (con_tagP _)
              (con_parenthesized_nonempty_list con_astring_utf8)))) _)
        (con_palt (con_pmap con_capability_data _)
          (con_palt (con_pmap (con_tagNoCase _) _)
            (con_palt
              (con_pmap (con_preceded (con_tagNoCase _) (con_parenthesized_list con_flag_perm))
                _)
              (con_palt (con_pmap (con_preceded (con_tagNoCase _) con_number) _)
                (con_palt (con_pmap (con_preceded (con_tagNoCase _) con_number) _)
                  (con_palt (con_pmap (con_preceded (con_tagNoCase _) con_number) _)
                    (con_palt (con_pmap (con_tagNoCase _) _)
                      (con_palt (con_pmap (con_tagNoCase _) _)
                        (con_palt (con_pmap (con_tagNoCase _) _)
                          con_resp_text_code_highest_mod_seq)))))))))))
    (con_tagP _)

theorem con_resp_capability : Consumes resp_capability := con_pmap con_capability_data _

theorem con_mailbox_data_search : Consumes mailbox_data_search :=
  con_pmap (con_preceded (con_tagNoCase _) (con_many0 (con_preceded (con_tagP _) con_number)))
    _

theorem con_mailbox_data_flags : Consumes mailbox_data_flags :=
  con_pmap (con_preceded (con_tagNoCase _) con_flag_list) _

theorem con_mailbox_data_exists : Consumes mailbox_data_exists :=
  con_pmap (con_terminated con_number (con_tagNoCase _)) _

theorem con_mailbox_list : Consumes mailbox_list :=
  con_pmap
    (con_pseq con_flag_list
      (con_pseq (con_tagP _)
        (con_pseq (con_palt (con_pmap con_quoted_utf8 _) (con_pmap con_nil _))
          (con_pseq (con_tagP _) con_mailbox))))
    _

theorem con_mailbox_data_list : Consumes mailbox_data_list :=
  con_pmap (con_preceded (con_tagNoCase _) con_mailbox_list) _

theorem con_mailbox_data_lsub : Consumes mailbox_data_lsub :=
  con_pmap (con_preceded (con_tagNoCase _) con_mailbox_list) _

theorem con_status_att : Consumes status_att :=
  con_palt con_status_att_val_highest_mod_seq
    (con_palt (con_pmap (con_preceded (con_tagNoCase _) con_number) _)
      (con_palt (con_pmap (con_preceded (con_tagNoCase _) con_number) _)
        (con_palt (con_pmap (con_preceded (con_tagNoCase _) con_number) _)
          (con_palt (con_pmap (con_preceded (con_tagNoCase _) con_number) _)
            (con_pmap (con_preceded (con_tagNoCase _) con_number) _)))))

theorem con_status_att_list : Consumes status_att_list :=
  con_parenthesized_nonempty_list con_status_att

theorem con_mailbox_data_status : Consumes mailbox_data_status :=
  con_pmap
    (con_pseq (con_tagNoCase _) (con_pseq con_mailbox (con_pseq (con_tagP _) con_status_att_list)))
    _

theorem con_mailbox_data_recent : Consumes mailbox_data_recent :=
  con_pmap (con_terminated con_number (con_tagNoCase _)) _

theorem con_mailbox_data : Consumes mailbox_data :=
  con_palt con_mailbox_data_flags
    (con_palt con_mailbox_data_exists
      (con_palt con_mailbox_data_list
        (con_palt con_mailbox_data_lsub
          (con_palt con_mailbox_data_status
            (con_palt con_mailbox_data_recent con_mailbox_data_search)))))

theorem con_address : Consumes address :=
  con_paren_delimited
    (con_pmap
      (con_pseq con_nstring
        (con_pseq (con_tagP _)
          (con_pseq con_nstring
            (con_pseq (con_tagP _)
              (con_pseq con_nstring (con_pseq (con_tagP _) con_nstring))))))
      _)

theorem con_opt_addresses : Consumes opt_addresses :=
  con_palt (con_pmap con_nil _)
    (con_pmap
      (con_paren_delimited (con_many1 (con_terminated con_address (con_popt (con_charP 32)))))
      _)

theorem con_envelope : Consumes envelope :=
  con_paren_delimited
    (con_pmap
      (con_pseq con_nstring
        (con_pseq (con_tagP _)
          (con_pseq con_nstring
            (con_pseq (con_tagP _)
              (con_pseq con_opt_addresses
                (con_pseq (con_tagP _)
                  (con_pseq con_opt_addresses
                    (con_pseq (con_tagP _)
                      (con_pseq con_opt_addresses
                        (con_pseq (con_tagP _)
                          (con_pseq con_opt_addresses
                            (con_pseq (con_tagP _)
                              (con_pseq con_opt_addresses
                                (con_pseq (con_tagP _)
                                  (con_pseq con_opt_addresses
                                    (con_pseq (con_tagP _)
                                      (con_pseq con_nstring
                                        (con_pseq (con_tagP _) con_nstring))))))))))))))))))
      _)

theorem con_msg_att_envelope : Consumes msg_att_envelope :=
  con_pmap (con_preceded (con_tagNoCase _) con_envelope) _

theorem con_msg_att_internal_date : Consumes msg_att_internal_date :=
  con_pmapUnwrap (con_preceded (con_tagNoCase _) con_nstring_utf8) _

theorem con_msg_att_flags : Consumes msg_att_flags :=
  con_pmap (con_preceded (con_tagNoCase _) con_flag_list) _

theorem con_msg_att_rfc822 : Consumes msg_att_rfc822 :=
  con_pmap (con_preceded (con_tagNoCase _) con_nstring) _

theorem con_msg_att_rfc822_header : Consumes msg_att_rfc822_header :=
  con_pmap (con_pseq (con_tagNoCase _) (con_pseq (con_popt (con_tagP _)) con_nstring)) _

theorem con_msg_att_rfc822_size : Consumes msg_att_rfc822_size :=
  con_pmap (con_preceded (con_tagNoCase _) con_number) _

theorem con_msg_att_rfc822_text : Consumes msg_att_rfc822_text :=
  con_pmap (con_preceded (con_tagNoCase _) con_nstring) _

theorem con_msg_att_uid : Consumes msg_att_uid :=
  con_pmap (con_preceded (con_tagNoCase _) con_number) _

theorem con_bodyF : ∀ fuel, Consumes (bodyF fuel) := by
  intro fuel
  induction fuel with
  | zero => intro i r v h; cases h
  | succ n ih =>
      exact con_paren_delimited
        (con_palt
          (con_pmap (con_pseq (con_many1 ih) (con_preceded (con_charP 32) con_string_utf8)) _)
          (con_pmap
            (con_pseq con_string_utf8
              (con_pseq (con_preceded (con_charP 32) con_string_utf8)
                (con_preceded (con_charP 32) con_number)))
            _))

theorem con_body : Consumes body := by
  intro i r v h
  exact con_bodyF (i.length + 1) i r v h

theorem con_msg_att_body_structure : Consumes msg_att_body_structure :=
  con_pmap (con_preceded (con_palt (con_tagNoCase _) (con_tagNoCase _)) con_body) _

theorem con_msg_att_body_section : Consumes msg_att_body_section :=
  con_pmap
    (con_pseq (con_tagNoCase _)
      (con_pseq (con_takeWhileCore _)
        (con_pseq (con_tagP _)
          (con_pseq (con_popt (con_pmap (con_pseq (con_tagP _) (con_pseq con_number (con_tagP _))) _))
            (con_pseq (con_charP 32) con_nstring)))))
    _

theorem con_msg_att : Consumes msg_att :=
  con_palt con_msg_att_body_section
    (con_palt con_msg_att_body_structure
      (con_palt con_msg_att_envelope
        (con_palt con_msg_att_internal_date
          (con_palt con_msg_att_flags
            (con_palt con_msg_att_mod_seq
              (con_palt con_msg_att_rfc822
                (con_palt con_msg_att_rfc822_header
                  (con_palt con_msg_att_rfc822_size
                    (con_palt con_msg_att_rfc822_text con_msg_att_uid)))))))))

theorem con_msg_att_list : Consumes msg_att_list :=
  con_parenthesized_nonempty_list con_msg_att

theorem con_message_data_fetch : Consumes message_data_fetch :=
  con_pmap (con_pseq con_number (con_pseq (con_tagNoCase _) con_msg_att_list)) _

theorem con_message_data_expunge : Consumes message_data_expunge :=
  con_pmap (con_terminated con_number (con_tagNoCase _)) _

theorem con_imap_tag : Consumes imap_tag :=
  con_pmap (con_pmapRes (con_takeWhile1 _) _) _

theorem con_resp_text : Consumes resp_text :=
  con_pmapUnwrap (con_pseq (con_popt con_resp_text_code) con_text) _

theorem con_resp_cond : Consumes resp_cond :=
  con_pmap (con_pseq con_status (con_pseq (con_tagP _) con_resp_text)) _

theorem con_resp_metadata : Consumes resp_metadata :=
  con_pmap
    (con_pseq (con_tagNoCase _)
      (con_pseq con_mailbox
        (con_pseq (con_charP 32) (con_parenthesized_nonempty_list con_astring_utf8))))
    _

theorem con_resp_enabled : Consumes resp_enabled :=
  con_pmap (con_preceded (con_tagNoCase _) (con_many0 (con_preceded (con_charP 32) con_capability)))
    _

/-!  Unfolding lemmas for the fueled `many0`. -/

theorem many0F_congr {α : Type} (p : Parser α) :
    ∀ f1 f2 (i : List Byte), i.length < f1 → i.length < f2 →
      many0F p f1 i = many0F p f2 i := by
  intro f1
  induction f1 with
  | zero => intro f2 i h1 h2; omega
  | succ n ih =>
      intro f2 i h1 h2
      cases f2 with
      | zero => omega
      | succ m =>
          simp only [many0F]
          cases hpi : p i with
          | ok r v =>
              by_cases hl : r.length < i.length
              · simp only [hl, if_true]
                rw [ih m r (by omega) (by omega)]
              · simp [hl]
          | err => rfl
          | incomplete => rfl
          | panicked => rfl

theorem many0F_to_many0 {α : Type} (p : Parser α) {f : Nat} {i : List Byte}
    (h : i.length < f) : many0F p f i = many0 p i :=
  many0F_congr p f (i.length + 1) i h (by omega)

theorem many0_cons {α : Type} {p : Parser α} {i r : List Byte} {v : α}
    (hp : p i = .ok r v) (hl : r.length < i.length) :
    many0 p i =
      match many0 p r with
      | .ok r2 vs => .ok r2 (v :: vs)
      | .err => .err
      | .incomplete => .incomplete
      | .panicked => .panicked := by
  have key : many0 p i =
      match many0F p i.length r with
      | .ok r2 vs => .ok r2 (v :: vs)
      | .err => .err
      | .incomplete => .incomplete
      | .panicked => .panicked := by
    unfold many0
    simp only [many0F, hp, hl, if_true]
  rw [key, many0F_to_many0 p hl]

theorem many0_err {α : Type} {p : Parser α} {i : List Byte}
    (hp : p i = .err) : many0 p i = .ok i [] := by
  unfold many0
  simp [many0F, hp]

/-- An address wire form always opens with a parenthesis. -/
theorem address_head {i r : List Byte} {a : Address}
    (h : address i = .ok r a) : ∃ t1, i = 40 :: t1 := by
  unfold address paren_delimited delimitedP at h
  obtain ⟨x, hx, _⟩ := pmap_inv h
  obtain ⟨m, a1, b1, hm, _, _⟩ := pseq_inv hx
  obtain ⟨hi, _⟩ := charP_inv hm
  exact ⟨m, hi⟩

theorem bytes_crlf : bytes ("\r\n") = [13, 10] := rfl

/-!  Claim theorems. -/

/-- C1: the capability-list grammar succeeds only when the decoded list
contains the Imap4rev1 capability; an announcement lacking it is rejected
as a validation failure, and the spec examples decode as stated. -/
theorem capability_data_requires_imap4rev1 :
    (∀ i r caps, capability_data i = .ok r caps → Capability.Imap4rev1 ∈ caps) ∧
    capability_data (bytes ("CAPABILITY AUTH=GSSAPI AUTH=PLAIN\r\n")) = .err ∧
    capability_data (bytes ("CAPABILITY IMAP4rev1 AUTH=GSSAPI AUTH=PLAIN\r\n")) =
      .ok (bytes ("\r\n"))
        [Capability.Imap4rev1, Capability.Auth (bytes ("GSSAPI")),
          Capability.Auth (bytes ("PLAIN"))] := by
  refine ⟨?_, ?_, ?_⟩
  · intro i r caps h
    unfold capability_data at h
    obtain ⟨caps0, _, hens⟩ := pmapRes_inv h
    unfold ensure_capabilities_contains_imap4rev at hens
    by_cases hmem : Capability.Imap4rev1 ∈ caps0
    · rw [if_pos hmem] at hens
      cases hens
      exact hmem
    · rw [if_neg hmem] at hens
      cases hens
  · rfl
  · rfl

/-- Witness for C1 at the spec's concrete capability announcement. -/
theorem capability_data_requires_imap4rev1_witness :
    Capability.Imap4rev1 ∈
      [Capability.Imap4rev1, Capability.Auth (bytes ("GSSAPI")),
        Capability.Auth (bytes ("PLAIN"))] :=
  capability_data_requires_imap4rev1.1
    (bytes ("CAPABILITY IMAP4rev1 AUTH=GSSAPI AUTH=PLAIN\r\n")) (bytes ("\r\n")) _
    capability_data_requires_imap4rev1.2.2

/-- C2: a response-text segment carrying a bracketed code followed by no
text (the next byte is already the terminator) decodes with the
information field absent, never as an empty string; in particular the
tagged completion of the spec example decodes with information `none`. -/
theorem resp_text_code_without_text_information_none :
    (∀ i b j c, resp_text_code i = .ok (b :: j) c → is_text_char b = false →
      resp_text i = .ok (b :: j) (some c, none)) ∧
    parse_response (bytes ("A1 OK [READ-ONLY]\r\n")) =
      .ok [] (Response.Done (RequestId.mk (bytes ("A1"))) Status.Ok
        (some ResponseCode.ReadOnly) none) := by
  constructor
  · intro i b j c h hb
    have hstep : takeWhileCore is_text_char (b :: j) = .ok (b :: j) [] := by
      unfold takeWhileCore
      rw [hb]
      simp
    have htext : text (b :: j) = .ok (b :: j) [] := by
      unfold text
      simp only [pmapRes, hstep]
      rfl
    unfold resp_text
    simp only [pmapUnwrap, pseq, popt, h, htext]
    simp
  · rfl

/-- Witness for C2 at the bracketed READ-ONLY code with no text. -/
theorem resp_text_code_without_text_information_none_witness :
    resp_text (bytes ("[READ-ONLY]\r\n")) =
      .ok (bytes ("\r\n")) (some ResponseCode.ReadOnly, none) :=
  resp_text_code_without_text_information_none.1 (bytes ("[READ-ONLY]\r\n")) 13
    (bytes ("\n")) ResponseCode.ReadOnly rfl rfl

/-- C9 counterexample: a response-text segment with a code present and a
non-empty following text that starts with a two-byte UTF-8 character
(0xC3 0xA9): the code and text sub-parsers succeed, yet the parse does
not return the text with its first byte removed — the byte slice misses
the character boundary and the parser panics. -/
theorem resp_text_multibyte_first_char_counterexample :
    resp_text_code (bytes ("[PARSE]") ++ 195 :: 169 :: 13 :: 10 :: []) =
      .ok (195 :: 169 :: 13 :: 10 :: []) ResponseCode.Parse ∧
    text (195 :: 169 :: 13 :: 10 :: []) = .ok (13 :: 10 :: []) (195 :: 169 :: []) ∧
    resp_text (bytes ("[PARSE]") ++ 195 :: 169 :: 13 :: 10 :: []) = .panicked :=
  ⟨rfl, rfl, rfl⟩

/-- C9 amended: when a bracketed code is present and the following text
is non-empty, the source slices the text from byte index 1.  If byte
index 1 is a character boundary (the text is a single byte, or its second
byte is not a UTF-8 continuation byte — in particular whenever the first
character is ASCII, space or not) the information field is the text with
its first byte removed; if the text starts with a multi-byte UTF-8
character the slice misses the boundary and the parser panics. -/
theorem resp_text_after_code_slice :
    (∀ i j r c b, resp_text_code i = .ok j c → text j = .ok r [b] →
      resp_text i = .ok r (some c, some [])) ∧
    (∀ i j r c b r1 rest, resp_text_code i = .ok j c →
      text j = .ok r (b :: r1 :: rest) → contB r1 = false →
      resp_text i = .ok r (some c, some (r1 :: rest))) ∧
    (∀ i j r c b r1 rest, resp_text_code i = .ok j c →
      text j = .ok r (b :: r1 :: rest) → contB r1 = true →
      resp_text i = .panicked) := by
  refine ⟨?_, ?_, ?_⟩
  · intro i j r c b h ht
    unfold resp_text
    simp only [pmapUnwrap, pseq, popt, h, ht]
    simp [sliceFrom1]
  · intro i j r c b r1 rest h ht hc
    unfold resp_text
    simp only [pmapUnwrap, pseq, popt, h, ht]
    simp [sliceFrom1, hc]
  · intro i j r c b r1 rest h ht hc
    unfold resp_text
    simp only [pmapUnwrap, pseq, popt, h, ht]
    simp [sliceFrom1, hc]

/-- Witness for the amended C9: an ASCII first byte (not a space) is
dropped, and a two-byte first character panics. -/
theorem resp_text_after_code_slice_witness :
    resp_text (bytes ("[PARSE]Xab\r\n")) =
      .ok (bytes ("\r\n")) (some ResponseCode.Parse, some (bytes ("ab"))) ∧
    resp_text (bytes ("[PARSE]") ++ 195 :: 169 :: 13 :: 10 :: []) = .panicked :=
  ⟨resp_text_after_code_slice.2.1 (bytes ("[PARSE]Xab\r\n")) (bytes ("Xab\r\n"))
      (bytes ("\r\n")) ResponseCode.Parse 88 97 (bytes ("b")) rfl rfl rfl,
    resp_text_after_code_slice.2.2 (bytes ("[PARSE]") ++ 195 :: 169 :: 13 :: 10 :: [])
      (195 :: 169 :: 13 :: 10 :: []) (13 :: 10 :: []) ResponseCode.Parse 195 169 []
      rfl rfl rfl⟩

/-- C4: the mailbox parser returns exactly the canonical INBOX for any
casing of INBOX, and returns every other accepted name unchanged. -/
theorem mailbox_inbox_normalization :
    ∀ i r s, astring_utf8 i = .ok r s →
      mailbox i = .ok r
        (if eqIgnoreAsciiCase s (bytes ("INBOX")) then bytes ("INBOX") else s) := by
  intro i r s h
  unfold mailbox
  simp only [pmap, h]

/-- Witness for C4: `iNboX` is canonicalized, another name keeps its
casing. -/
theorem mailbox_inbox_normalization_witness :
    mailbox (bytes ("iNboX ")) = .ok (bytes (" ")) (bytes ("INBOX")) ∧
    mailbox (bytes ("Archive ")) = .ok (bytes (" ")) (bytes ("Archive")) := by
  constructor
  · have h := mailbox_inbox_normalization (bytes ("iNboX ")) (bytes (" "))
      (bytes ("iNboX")) rfl
    rw [if_pos (by decide)] at h
    exact h
  · have h := mailbox_inbox_normalization (bytes ("Archive ")) (bytes (" "))
      (bytes ("Archive")) rfl
    rw [if_neg (by decide)] at h
    exact h

/-- C6: the NIL sentinel decodes to an absent address list, while the
empty parenthesized list is rejected by the non-empty list grammar. -/
theorem opt_addresses_nil_vs_empty :
    opt_addresses (bytes ("NIL")) = .ok [] none ∧
    opt_addresses (bytes ("()")) = .err := by
  constructor <;> rfl

/-- C8: on the syntactically valid attribute `INTERNALDATE NIL` the
parser panics through `unwrap()` on the absent date instead of failing;
the panic propagates through a whole fetch response parse. -/
theorem msg_att_internal_date_panics_on_nil :
    msg_att_internal_date (bytes ("INTERNALDATE NIL")) = .panicked ∧
    parse_response (bytes ("* 1 FETCH (INTERNALDATE NIL)\r\n")) = .panicked := by
  constructor <;> rfl

/-- C10: an LSUB response decodes to the same MailboxDatum.List value as
a LIST response with the same payload; the output retains no trace of
which keyword was on the wire. -/
theorem lsub_list_same_variant :
    ∀ i, mailbox_data_lsub (bytes ("LSUB ") ++ i) =
      mailbox_data_list (bytes ("LIST ") ++ i) := by
  intro i
  rfl

/-- C3: the top-level parser accepts a response unit only when the
consumed bytes end with the CR LF terminator: every successful parse
splits the input as a prefix, the two terminator bytes, then the
unconsumed rest. -/
theorem parse_response_requires_crlf :
    ∀ i r v, parse_response i = .ok r v → ∃ pre, i = pre ++ 13 :: 10 :: r := by
  intro i r v h
  unfold parse_response response at h
  rcases palt_inv h with h1 | ⟨_, h2⟩
  · unfold continue_req at h1
    obtain ⟨x, hx, _⟩ := pmap_inv h1
    obtain ⟨m1, _, _, hm1, hx2, _⟩ := pseq_inv hx
    obtain ⟨m2, _, _, hm2, hx3, _⟩ := pseq_inv hx2
    obtain ⟨m3, _, _, hm3, hx4, _⟩ := pseq_inv hx3
    have e1 := tagP_ok hm1
    obtain ⟨p2, e2⟩ := con_popt (con_tagP _) m1 m2 _ hm2
    obtain ⟨p3, e3⟩ := con_resp_text m2 m3 _ hm3
    have e4 := tagP_ok hx4
    rw [bytes_crlf] at e4
    exact ⟨bytes ("+") ++ p2 ++ p3, by rw [e1, e2, e3, e4]; simp⟩
  · rcases palt_inv h2 with h3 | ⟨_, h4⟩
    · unfold response_data delimitedP at h3
      obtain ⟨x, hx, _⟩ := pmap_inv h3
      obtain ⟨m1, _, _, hm1, hx2, _⟩ := pseq_inv hx
      obtain ⟨m2, _, _, hm2, hx3, _⟩ := pseq_inv hx2
      have e1 := tagP_ok hm1
      have hinner : Consumes
          (palt resp_cond
            (palt mailbox_data
              (palt message_data_expunge
                (palt message_data_fetch
                  (palt resp_capability (palt resp_metadata resp_enabled)))))) :=
        con_palt con_resp_cond
          (con_palt con_mailbox_data
            (con_palt con_message_data_expunge
              (con_palt con_message_data_fetch
                (con_palt con_resp_capability (con_palt con_resp_metadata con_resp_enabled)))))
      obtain ⟨p2, e2⟩ := hinner m1 m2 _ hm2
      have e3 := tagP_ok hx3
      rw [bytes_crlf] at e3
      exact ⟨bytes ("* ") ++ p2, by rw [e1, e2, e3]; simp⟩
    · unfold response_tagged at h4
      obtain ⟨x, hx, _⟩ := pmap_inv h4
      obtain ⟨m1, _, _, hm1, hx2, _⟩ := pseq_inv hx
      obtain ⟨m2, _, _, hm2, hx3, _⟩ := pseq_inv hx2
      obtain ⟨m3, _, _, hm3, hx4, _⟩ := pseq_inv hx3
      obtain ⟨m4, _, _, hm4, hx5, _⟩ := pseq_inv hx4
      obtain ⟨m5, _, _, hm5, hx6, _⟩ := pseq_inv hx5
      obtain ⟨p1, e1⟩ := con_imap_tag i m1 _ hm1
      have e2 := tagP_ok hm2
      obtain ⟨p3, e3⟩ := con_status m2 m3 _ hm3
      have e4 := tagP_ok hm4
      obtain ⟨p5, e5⟩ := con_resp_text m4 m5 _ hm5
      have e6 := tagP_ok hx6
      rw [bytes_crlf] at e6
      exact ⟨p1 ++ bytes (" ") ++ p3 ++ bytes (" ") ++ p5,
        by rw [e1, e2, e3, e4, e5, e6]; simp⟩

/-- Witness for C3 at a complete untagged expunge response. -/
theorem parse_response_requires_crlf_witness :
    ∃ pre, bytes ("* 5 EXPUNGE\r\n") = pre ++ 13 :: 10 :: [] :=
  parse_response_requires_crlf (bytes ("* 5 EXPUNGE\r\n")) [] (Response.Expunge 5) rfl

/-- C5: every successful envelope parse consumes an opening parenthesis
and exactly ten space-separated fields in the fixed wire order date,
subject, from, sender, reply-to, to, cc, bcc, in-reply-to, message-id,
each landing in the field of that name, up to the closing parenthesis;
and a nine-field tuple is a syntax failure. -/
theorem envelope_ten_fields :
    (∀ i r e, envelope i = .ok r e →
      ∃ (j0 j1 j2 j3 j4 j5 j6 j7 j8 j9 j10 j11 j12 j13 j14 j15 j16 j17 j18 : List Byte)
        (d s : Option (List Byte)) (fr sn rt tt cco bco : Option (List Address))
        (ir mi : Option (List Byte)),
        i = 40 :: j0 ∧
        nstring j0 = .ok j1 d ∧
        tagP (bytes (" ")) j1 = .ok j2 () ∧
        nstring j2 = .ok j3 s ∧
        tagP (bytes (" ")) j3 = .ok j4 () ∧
        opt_addresses j4 = .ok j5 fr ∧
        tagP (bytes (" ")) j5 = .ok j6 () ∧
        opt_addresses j6 = .ok j7 sn ∧
        tagP (bytes (" ")) j7 = .ok j8 () ∧
        opt_addresses j8 = .ok j9 rt ∧
        tagP (bytes (" ")) j9 = .ok j10 () ∧
        opt_addresses j10 = .ok j11 tt ∧
        tagP (bytes (" ")) j11 = .ok j12 () ∧
        opt_addresses j12 = .ok j13 cco ∧
        tagP (bytes (" ")) j13 = .ok j14 () ∧
        opt_addresses j14 = .ok j15 bco ∧
        tagP (bytes (" ")) j15 = .ok j16 () ∧
        nstring j16 = .ok j17 ir ∧
        tagP (bytes (" ")) j17 = .ok j18 () ∧
        nstring j18 = .ok (41 :: r) mi ∧
        e = Envelope.mk d s fr sn rt tt cco bco ir mi) ∧
    envelope (bytes ("(NIL NIL NIL NIL NIL NIL NIL NIL NIL)")) = .err := by
  constructor
  · intro i r e h
    unfold envelope paren_delimited delimitedP at h
    obtain ⟨x, hx, hve⟩ := pmap_inv h
    obtain ⟨m0, c0, y, hc0, hy, rfl⟩ := pseq_inv hx
    obtain ⟨mf, ev, c1, hf, hcl, rfl⟩ := pseq_inv hy
    obtain ⟨hi0, _⟩ := charP_inv hc0
    obtain ⟨hmf, _⟩ := charP_inv hcl
    obtain ⟨tup, ht0, hevv⟩ := pmap_inv hf
    obtain ⟨j1, d, t1, h1, ht1, rfl⟩ := pseq_inv ht0
    obtain ⟨j2, u1, t2, h2, ht2, rfl⟩ := pseq_inv ht1
    obtain ⟨j3, s, t3, h3, ht3, rfl⟩ := pseq_inv ht2
    obtain ⟨j4, u2, t4, h4, ht4, rfl⟩ := pseq_inv ht3
    obtain ⟨j5, fr, t5, h5, ht5, rfl⟩ := pseq_inv ht4
    obtain ⟨j6, u3, t6, h6, ht6, rfl⟩ := pseq_inv ht5
    obtain ⟨j7, sn, t7, h7, ht7, rfl⟩ := pseq_inv ht6
    obtain ⟨j8, u4, t8, h8, ht8, rfl⟩ := pseq_inv ht7
    obtain ⟨j9, rt, t9, h9, ht9, rfl⟩ := pseq_inv ht8
    obtain ⟨j10, u5, t10, h10, ht10, rfl⟩ := pseq_inv ht9
    obtain ⟨j11, tt, t11, h11, ht11, rfl⟩ := pseq_inv ht10
    obtain ⟨j12, u6, t12, h12, ht12, rfl⟩ := pseq_inv ht11
    obtain ⟨j13, cco, t13, h13, ht13, rfl⟩ := pseq_inv ht12
    obtain ⟨j14, u7, t14, h14, ht14, rfl⟩ := pseq_inv ht13
    obtain ⟨j15, bco, t15, h15, ht15, rfl⟩ := pseq_inv ht14
    obtain ⟨j16, u8, t16, h16, ht16, rfl⟩ := pseq_inv ht15
    obtain ⟨j17, ir, t17, h17, ht17, rfl⟩ := pseq_inv ht16
    obtain ⟨j18, u9, mi, h18, ht18, rfl⟩ := pseq_inv ht17
    rw [hmf] at ht18
    refine ⟨m0, j1, j2, j3, j4, j5, j6, j7, j8, j9, j10, j11, j12, j13, j14, j15,
      j16, j17, j18, d, s, fr, sn, rt, tt, cco, bco, ir, mi,
      hi0, h1, h2, h3, h4, h5, h6, h7, h8, h9, h10, h11, h12, h13, h14, h15,
      h16, h17, h18, ht18, ?_⟩
    rw [hve, hevv]
  · rfl

theorem popt_space_no {b : Byte} (hb : b ≠ 32) (t : List Byte) :
    popt (charP 32) (b :: t) = .ok (b :: t) none := by
  simp [popt, charP, hb]

theorem popt_space_yes (t : List Byte) :
    popt (charP 32) (32 :: t) = .ok t (some 32) := by
  simp [popt, charP]

theorem terminated_addr {s t t2 : List Byte} {a : Address} {o : Option Byte}
    (hadr : address (s ++ t) = .ok t a)
    (hsp : popt (charP 32) t = .ok t2 o) :
    terminated address (popt (charP 32)) (s ++ t) = .ok t2 a := by
  unfold terminated
  simp only [pmap, pseq, hadr, hsp]

theorem many1_cons {α : Type} {p : Parser α} {i r : List Byte} {v : α}
    (hp : p i = .ok r v) (hl : r.length < i.length) :
    many1 p i =
      match many0 p r with
      | .ok r2 vs => .ok r2 (v :: vs)
      | .err => .err
      | .incomplete => .incomplete
      | .panicked => .panicked := by
  unfold many1
  simp only [hp, hl, if_true]

/-- A non-empty adjacency-joined address sequence followed by the closing
parenthesis never starts with a space. -/
theorem addrs_head_not_space :
    ∀ L : List (List Byte × Address),
      (∀ q ∈ L, q.1 ≠ [] ∧ ∀ t, address (q.1 ++ t) = .ok t q.2) →
      ∃ b t2, joinAdj (L.map Prod.fst) ++ [41] = b :: t2 ∧ b ≠ 32 := by
  intro L hL
  cases L with
  | nil => exact ⟨41, [], by simp [joinAdj], by decide⟩
  | cons q L2 =>
      obtain ⟨hne2, hadr2⟩ := hL q (by simp)
      obtain ⟨t1, hq⟩ := address_head (hadr2 [])
      have hq1 : q.1 = 40 :: t1 := by simpa using hq
      refine ⟨40, t1 ++ (joinAdj (L2.map Prod.fst) ++ [41]), ?_, by decide⟩
      simp [joinAdj, hq1]

/-- Looping step for C7, adjacency form: with self-delimiting address
wire forms the loop decodes each address in turn with no separating
spaces. -/
theorem many0_addrs_adj :
    ∀ L : List (List Byte × Address),
      (∀ q ∈ L, q.1 ≠ [] ∧ ∀ t, address (q.1 ++ t) = .ok t q.2) →
      many0 (terminated address (popt (charP 32))) (joinAdj (L.map Prod.fst) ++ [41]) =
        .ok [41] (L.map Prod.snd) := by
  intro L
  induction L with
  | nil =>
      intro _
      have herr : terminated address (popt (charP 32)) [41] = .err := rfl
      simpa [joinAdj] using many0_err herr
  | cons hd L ih =>
      intro hL
      obtain ⟨hne, hadr⟩ := hL hd (by simp)
      have hinput : joinAdj ((hd :: L).map Prod.fst) ++ [41] =
          hd.1 ++ (joinAdj (L.map Prod.fst) ++ [41]) := by
        simp [joinAdj]
      obtain ⟨b, t2, htb, hbne⟩ :=
        addrs_head_not_space L (fun q hq => hL q (List.mem_cons_of_mem _ hq))
      have hsp : popt (charP 32) (joinAdj (L.map Prod.fst) ++ [41]) =
          .ok (joinAdj (L.map Prod.fst) ++ [41]) none := by
        rw [htb]
        exact popt_space_no hbne t2
      have hterm := terminated_addr (hadr (joinAdj (L.map Prod.fst) ++ [41])) hsp
      have hlen : (joinAdj (L.map Prod.fst) ++ [41]).length <
          (hd.1 ++ (joinAdj (L.map Prod.fst) ++ [41])).length := by
        have := List.length_pos.mpr hne
        simp [List.length_append]
        omega
      rw [hinput, many0_cons hterm hlen,
        ih (fun q hq => hL q (List.mem_cons_of_mem _ hq))]
      simp

/-- Looping step for C7, single-space form. -/
theorem many0_addrs_sp :
    ∀ L : List (List Byte × Address),
      (∀ q ∈ L, q.1 ≠ [] ∧ ∀ t, address (q.1 ++ t) = .ok t q.2) →
      many0 (terminated address (popt (charP 32))) (joinSp (L.map Prod.fst) ++ [41]) =
        .ok [41] (L.map Prod.snd) := by
  intro L
  induction L with
  | nil =>
      intro _
      have herr : terminated address (popt (charP 32)) [41] = .err := rfl
      simpa [joinSp] using many0_err herr
  | cons hd L ih =>
      intro hL
      obtain ⟨hne, hadr⟩ := hL hd (by simp)
      cases L with
      | nil =>
          have hinput : joinSp ((hd :: ([] : List (List Byte × Address))).map Prod.fst) ++ [41] =
              hd.1 ++ [41] := by
            simp [joinSp]
          have hsp : popt (charP 32) [41] = .ok [41] none := popt_space_no (by decide) []
          have hterm := terminated_addr (hadr [41]) hsp
          have hlen : ([41] : List Byte).length < (hd.1 ++ [41]).length := by
            have := List.length_pos.mpr hne
            simp [List.length_append]
            omega
          have herr : terminated address (popt (charP 32)) [41] = .err := rfl
          rw [hinput, many0_cons hterm hlen, many0_err herr]
          simp
      | cons q L2 =>
          have hinput : joinSp ((hd :: q :: L2).map Prod.fst) ++ [41] =
              hd.1 ++ (32 :: (joinSp ((q :: L2).map Prod.fst) ++ [41])) := by
            simp [joinSp, List.map]
          have hsp : popt (charP 32) (32 :: (joinSp ((q :: L2).map Prod.fst) ++ [41])) =
              .ok (joinSp ((q :: L2).map Prod.fst) ++ [41]) (some 32) :=
            popt_space_yes _
          have hterm := terminated_addr (hadr (32 :: (joinSp ((q :: L2).map Prod.fst) ++ [41]))) hsp
          have hlen : (joinSp ((q :: L2).map Prod.fst) ++ [41]).length <
              (hd.1 ++ (32 :: (joinSp ((q :: L2).map Prod.fst) ++ [41]))).length := by
            simp [List.length_append]
            omega
          rw [hinput, many0_cons hterm hlen,
            ih (fun q2 hq2 => hL q2 (List.mem_cons_of_mem _ hq2))]
          simp

/-- C7: a parenthesized sequence of one or more self-delimiting address
wire forms decodes to the same address list whether consecutive
addresses are separated by a single space or directly adjacent. -/
theorem opt_addresses_space_or_adjacent :
    ∀ L : List (List Byte × Address), L ≠ [] →
      (∀ q ∈ L, q.1 ≠ [] ∧ ∀ t, address (q.1 ++ t) = .ok t q.2) →
      opt_addresses (40 :: (joinAdj (L.map Prod.fst) ++ [41])) =
        .ok [] (some (L.map Prod.snd)) ∧
      opt_addresses (40 :: (joinSp (L.map Prod.fst) ++ [41])) =
        .ok [] (some (L.map Prod.snd)) := by
  intro L hne hL
  have key : ∀ X : List Byte,
      many1 (terminated address (popt (charP 32))) X = .ok [41] (L.map Prod.snd) →
      opt_addresses (40 :: X) = .ok [] (some (L.map Prod.snd)) := by
    intro X hX
    have hnil : nil (40 :: X) = .err := rfl
    unfold opt_addresses paren_delimited delimitedP
    simp [palt, pmap, pseq, charP, hnil, hX]
  cases L with
  | nil => exact absurd rfl hne
  | cons hd rest =>
      obtain ⟨hne1, hadr⟩ := hL hd (by simp)
      constructor
      · apply key
        have hinput : joinAdj ((hd :: rest).map Prod.fst) ++ [41] =
            hd.1 ++ (joinAdj (rest.map Prod.fst) ++ [41]) := by
          simp [joinAdj]
        obtain ⟨b, t2, htb, hbne⟩ :=
          addrs_head_not_space rest (fun q hq => hL q (List.mem_cons_of_mem _ hq))
        have hsp : popt (charP 32) (joinAdj (rest.map Prod.fst) ++ [41]) =
            .ok (joinAdj (rest.map Prod.fst) ++ [41]) none := by
          rw [htb]
          exact popt_space_no hbne t2
        have hterm := terminated_addr (hadr (joinAdj (rest.map Prod.fst) ++ [41])) hsp
        have hlen : (joinAdj (rest.map Prod.fst) ++ [41]).length <
            (hd.1 ++ (joinAdj (rest.map Prod.fst) ++ [41])).length := by
          have := List.length_pos.mpr hne1
          simp [List.length_append]
          omega
        rw [hinput, many1_cons hterm hlen,
          many0_addrs_adj rest (fun q hq => hL q (List.mem_cons_of_mem _ hq))]
        simp
      · apply key
        cases rest with
        | nil =>
            have hinput :
                joinSp ((hd :: ([] : List (List Byte × Address))).map Prod.fst) ++ [41] =
                  hd.1 ++ [41] := by
              simp [joinSp]
            have hsp : popt (charP 32) ((41 : Byte) :: []) = .ok [41] none :=
              popt_space_no (by decide) []
            have hterm := terminated_addr (hadr [41]) hsp
            have hlen : ([41] : List Byte).length < (hd.1 ++ [41]).length := by
              have := List.length_pos.mpr hne1
              simp [List.length_append]
              omega
            have herr : terminated address (popt (charP 32)) [41] = .err := rfl
            rw [hinput, many1_cons hterm hlen, many0_err herr]
            simp
        | cons q L2 =>
            have hinput : joinSp ((hd :: q :: L2).map Prod.fst) ++ [41] =
                hd.1 ++ (32 :: (joinSp ((q :: L2).map Prod.fst) ++ [41])) := by
              simp [joinSp, List.map]
            have hsp : popt (charP 32) (32 :: (joinSp ((q :: L2).map Prod.fst) ++ [41])) =
                .ok (joinSp ((q :: L2).map Prod.fst) ++ [41]) (some 32) :=
              popt_space_yes _
            have hterm :=
              terminated_addr (hadr (32 :: (joinSp ((q :: L2).map Prod.fst) ++ [41]))) hsp
            have hlen : (joinSp ((q :: L2).map Prod.fst) ++ [41]).length <
                (hd.1 ++ (32 :: (joinSp ((q :: L2).map Prod.fst) ++ [41]))).length := by
              simp [List.length_append]
              omega
            rw [hinput, many1_cons hterm hlen,
              many0_addrs_sp (q :: L2) (fun q2 hq2 => hL q2 (List.mem_cons_of_mem _ hq2))]
            simp

/-- Witness for C7: two concrete addresses, adjacent and space-separated,
decode to the same list. -/
theorem opt_addresses_space_or_adjacent_witness :
    opt_addresses (40 ::
        (joinAdj ([(bytes ("(NIL NIL NIL NIL)"), Address.mk none none none none),
          (bytes ("(NIL NIL \"m\" \"h\")"),
            Address.mk none none (some (bytes ("m"))) (some (bytes ("h"))))].map Prod.fst) ++
          [41])) =
      .ok []
        (some ([(bytes ("(NIL NIL NIL NIL)"), Address.mk none none none none),
          (bytes ("(NIL NIL \"m\" \"h\")"),
            Address.mk none none (some (bytes ("m"))) (some (bytes ("h"))))].map Prod.snd)) ∧
    opt_addresses (40 ::
        (joinSp ([(bytes ("(NIL NIL NIL NIL)"), Address.mk none none none none),
          (bytes ("(NIL NIL \"m\" \"h\")"),
            Address.mk none none (some (bytes ("m"))) (some (bytes ("h"))))].map Prod.fst) ++
          [41])) =
      .ok []
        (some ([(bytes ("(NIL NIL NIL NIL)"), Address.mk none none none none),
          (bytes ("(NIL NIL \"m\" \"h\")"),
            Address.mk none none (some (bytes ("m"))) (some (bytes ("h"))))].map Prod.snd)) := by
  apply opt_addresses_space_or_adjacent
  · simp
  · intro q hq
    simp only [List.mem_cons, List.mem_singleton, List.not_mem_nil, or_false] at hq
    rcases hq with rfl | rfl
    · exact ⟨by decide, fun t => rfl⟩
    · exact ⟨by decide, fun t => rfl⟩

/-- Witness for C5 at a concrete ten-field envelope. -/
theorem envelope_ten_fields_witness :
    ∃ (j0 j1 j2 j3 j4 j5 j6 j7 j8 j9 j10 j11 j12 j13 j14 j15 j16 j17 j18 : List Byte)
      (d s : Option (List Byte)) (fr sn rt tt cco bco : Option (List Address))
      (ir mi : Option (List Byte)),
      bytes ("(\"d\" \"s\" ((\"n\" NIL \"m\" \"h\")) NIL NIL NIL NIL NIL \"ir\" \"mi\")") =
        40 :: j0 ∧
      nstring j0 = .ok j1 d ∧
      tagP (bytes (" ")) j1 = .ok j2 () ∧
      nstring j2 = .ok j3 s ∧
      tagP (bytes (" ")) j3 = .ok j4 () ∧
      opt_addresses j4 = .ok j5 fr ∧
      tagP (bytes (" ")) j5 = .ok j6 () ∧
      opt_addresses j6 = .ok j7 sn ∧
      tagP (bytes (" ")) j7 = .ok j8 () ∧
      opt_addresses j8 = .ok j9 rt ∧
      tagP (bytes (" ")) j9 = .ok j10 () ∧
      opt_addresses j10 = .ok j11 tt ∧
      tagP (bytes (" ")) j11 = .ok j12 () ∧
      opt_addresses j12 = .ok j13 cco ∧
      tagP (bytes (" ")) j13 = .ok j14 () ∧
      opt_addresses j14 = .ok j15 bco ∧
      tagP (bytes (" ")) j15 = .ok j16 () ∧
      nstring j16 = .ok j17 ir ∧
      tagP (bytes (" ")) j17 = .ok j18 () ∧
      nstring j18 = .ok (41 :: ([] : List Byte)) mi ∧
      (Envelope.mk (some (bytes ("d"))) (some (bytes ("s")))
        (some [Address.mk (some (bytes ("n"))) none (some (bytes ("m"))) (some (bytes ("h")))])
        none none none none none (some (bytes ("ir"))) (some (bytes ("mi")))) =
        Envelope.mk d s fr sn rt tt cco bco ir mi :=
  envelope_ten_fields.1
    (bytes ("(\"d\" \"s\" ((\"n\" NIL \"m\" \"h\")) NIL NIL NIL NIL NIL \"ir\" \"mi\")")) []
    (Envelope.mk (some (bytes ("d"))) (some (bytes ("s")))
      (some [Address.mk (some (bytes ("n"))) none (some (bytes ("m"))) (some (bytes ("h")))])
      none none none none none (some (bytes ("ir"))) (some (bytes ("mi"))))
    rfl

end Imap
